import Mathlib

/-!
# Session token lifecycle of the `my-app` backend

A shallow embedding of `src/backend/controllers/authControllers.js`,
`src/backend/controllers/userControllers.js` and the schema of
`src/backend/db/database.js`.

* The SQLite database is an explicit state (`Db`) passed through every handler.
* Every handler returns the HTTP response together with the database afterwards.
* A request field is `Option String`: `none` when the field is absent, `some s` when it is
  the string `s`. Fields of another JSON type are outside the model.
* The third-party primitives (SHA-256, the HS256 serialisation of `jsonwebtoken`,
  `bcryptjs`) and the field validators of `utils/validators.js` are fields of `Env`.
* The wall clock is an explicit argument `now`, in whole seconds, which is the only
  way the clock enters `jsonwebtoken` (`iat = floor(Date.now() / 1000)`). All clock
  readings of one handler call are taken to fall into the same second.
* Exceptions of the storage layer are modelled where a handler reacts to them in a way
  of its own: in `signup` (the UNIQUE test on the message) and in `deleteAccount`
  (the transaction and the foreign-key fallback).
-/

namespace MyApp

/-! ## Data model (`db/database.js`) -/

/-- Row of the `users` table. -/
structure User where
  id : Nat
  first_name : String
  middle_name : Option String
  last_name : String
  username : String
  email : String
  password : String
  refresh_token : Option String
deriving DecidableEq

/-- Row of the `todos` table; `user_id` references `users(id)`. -/
structure Todo where
  id : Nat
  user_id : Option Nat
  task : String
  completed : Int
deriving DecidableEq

/-- The database file: both tables in rowid order, the AUTOINCREMENT counter of `users`
(`sqlite_sequence`) and the `foreign_keys` pragma of the connection. -/
structure Db where
  users : List User
  todos : List Todo
  userSeq : Nat
  foreign_keys : Bool
deriving DecidableEq

/-- The database right after `database.js` has run on a fresh file. -/
def emptyDb : Db :=
  { users := [], todos := [], userSeq := 0, foreign_keys := true }

/-! ## Responses -/

/-- Public profile fields returned by `login`. -/
structure Profile where
  id : Nat
  first_name : String
  middle_name : Option String
  last_name : String
  username : String
  email : String
deriving DecidableEq

/-- The JSON bodies the handlers send. -/
inductive Body where
  | error (error : String)
  | errorDetails (error details : String)
  | message (message : String)
  | tokens (accessToken refreshToken : String)
  | loginOk (message accessToken refreshToken : String) (user : Profile)
deriving DecidableEq

/-- An HTTP response: `res.status(s).json(b)`; `res.json(b)` alone has status 200. -/
structure Response where
  status : Nat
  body : Body
deriving DecidableEq

/-! ## External primitives and configuration -/

/-- Payload of a token: the claims `id`, `username` put there by the handlers and the
`iat`, `exp` claims added by `jsonwebtoken`. -/
structure Decoded where
  id : Nat
  username : String
  iat : Nat
  exp : Nat
deriving DecidableEq

/-- The environment of the handlers: `process.env.JWT_SECRET`, the cryptographic
primitives of the libraries and the validators of `utils/validators.js`. -/
structure Env where
  /-- The value of `process.env.JWT_SECRET`, `none` when the variable is unset. -/
  JWT_SECRET : Option String
  /-- The hex SHA-256 digest: `crypto.createHash("sha256").update(t).digest("hex")`. -/
  sha256hex : String → String
  /-- HS256 compact serialisation of a payload under a key. -/
  jwsEncode : Decoded → String → String
  /-- Signature check and payload parse of a compact serialisation under a key. -/
  jwsDecode : String → String → Option Decoded
  /-- The salted hash `bcrypt.hashSync(password, 10)`; the salt is the second argument. -/
  bcryptHash : String → Nat → String
  /-- The comparison `bcrypt.compareSync(password, hash)`. -/
  bcryptCompare : String → String → Bool
  isValidName : String → Bool
  isValidPassword : String → Bool
  isValidUsername : String → Bool
  isValidEmail : String → Bool

/-- JavaScript truthiness of a request field or environment variable that is either
absent or a string: `!x` holds exactly when `truthy x` is false. -/
def truthy (x : Option String) : Bool :=
  match x with
  | some s => s != ""
  | none => false

/-- The constant `ACCESS_EXPIRES = "15m"`, in seconds. -/
def ACCESS_EXPIRES : Nat := 15 * 60

/-- The constant `REFRESH_EXPIRES = "7d"`, in seconds. -/
def REFRESH_EXPIRES : Nat := 7 * 24 * 60 * 60

/-- The helper `hashToken`. -/
def hashToken (env : Env) (token : String) : String :=
  env.sha256hex token

/-- The call `jwt.sign({ id, username }, secret, { expiresIn })` at clock second `now`:
throws when the secret is missing, otherwise serialises the payload with
`iat = now` and `exp = now + expiresIn`. No `jti` is requested and HS256 is
deterministic, so the token is a function of the payload, the key and the clock second. -/
def jwtSign (env : Env) (id : Nat) (username : String) (secret : Option String)
    (expiresIn now : Nat) : Except String String :=
  match secret with
  | some key =>
    if key = "" then .error "secretOrPrivateKey must have a value"
    else .ok (env.jwsEncode { id := id, username := username, iat := now, exp := now + expiresIn } key)
  | none => .error "secretOrPrivateKey must have a value"

/-- The call `jwt.verify(token, secret)` at clock second `now`: throws on an empty token,
a missing secret, a token that does not decode under the secret, and an expired token. -/
def jwtVerify (env : Env) (token : String) (secret : Option String) (now : Nat) :
    Except String Decoded :=
  if token = "" then .error "jwt must be provided"
  else
    match secret with
    | some key =>
      if key = "" then .error "secret or public key must be provided"
      else
        match env.jwsDecode token key with
        | some decoded =>
          if now ≥ decoded.exp then .error "jwt expired" else .ok decoded
        | none => .error "invalid token"
    | none => .error "secret or public key must be provided"

/-- The helper `signAccessToken`. -/
def signAccessToken (env : Env) (user : User) (now : Nat) : Except String String :=
  jwtSign env user.id user.username env.JWT_SECRET ACCESS_EXPIRES now

/-- The helper `signRefreshToken`. -/
def signRefreshToken (env : Env) (user : User) (now : Nat) : Except String String :=
  jwtSign env user.id user.username env.JWT_SECRET REFRESH_EXPIRES now

/-! ## Storage statements -/

/-- The statement `SELECT * FROM users WHERE username = ?`, first row. -/
def selectUserByUsername (db : Db) (username : String) : Option User :=
  db.users.find? (fun u => decide (u.username = username))

/-- The statement `SELECT * FROM users WHERE refresh_token = ?`, first row. -/
def selectUserByRefreshToken (db : Db) (hashed : String) : Option User :=
  db.users.find? (fun u => decide (u.refresh_token = some hashed))

/-- The statement `SELECT * FROM users WHERE id = ?`, first row. -/
def selectUserById (db : Db) (id : Nat) : Option User :=
  db.users.find? (fun u => decide (u.id = id))

/-- The statements `UPDATE users SET refresh_token = ? WHERE id = ?` and
`UPDATE users SET refresh_token = NULL WHERE id = ?`. -/
def updateRefreshTokenById (db : Db) (value : Option String) (id : Nat) : Db :=
  { db with
    users := List.map (fun u => if u.id = id then { u with refresh_token := value } else u)
      db.users }

/-- The statement `UPDATE users SET refresh_token = NULL WHERE refresh_token = ?`,
with the number of changed rows. -/
def clearRefreshTokenByValue (db : Db) (hashed : String) : Nat × Db :=
  ((db.users.filter (fun u => decide (u.refresh_token = some hashed))).length,
   { db with
     users := List.map
       (fun u => if u.refresh_token = some hashed then { u with refresh_token := none } else u)
       db.users })

/-- The statement `UPDATE users SET password = ? WHERE id = ?`. -/
def updatePasswordById (db : Db) (hashed : String) (id : Nat) : Db :=
  { db with
    users := List.map (fun u => if u.id = id then { u with password := hashed } else u)
      db.users }

/-! ## `authControllers.js` -/

/-- The handler `login`, at clock second `now`. -/
def login (env : Env) (db : Db) (username password : Option String) (now : Nat) :
    Response × Db :=
  match username, password with
  | some username, some password =>
    if username = "" ∨ password = "" then
      (⟨400, .error "username and password are required"⟩, db)
    else if !env.isValidUsername username then
      (⟨400, .error "Invalid username format"⟩, db)
    else if !env.isValidPassword password then
      (⟨400, .error "Password format invalid. It must be at least 8 characters long and contain uppercase, lowercase, number, and special character (#?!@$%^&*.-_)"⟩, db)
    else
      match selectUserByUsername db username with
      | none => (⟨404, .error "User not found"⟩, db)
      | some user =>
        if !env.bcryptCompare password user.password then
          (⟨401, .error "Invalid password"⟩, db)
        else if !truthy env.JWT_SECRET then
          (⟨500, .error "Server configuration error: JWT_SECRET not found"⟩, db)
        else
          match signAccessToken env user now, signRefreshToken env user now with
          | .ok accessToken, .ok refreshToken =>
            let hashedRefresh := hashToken env refreshToken
            (⟨200, .loginOk "Login successful" accessToken refreshToken
                { id := user.id, first_name := user.first_name, middle_name := user.middle_name,
                  last_name := user.last_name, username := user.username, email := user.email }⟩,
             updateRefreshTokenById db (some hashedRefresh) user.id)
          | .error tokenError, _ =>
            (⟨500, .error ("Token generation failed: " ++ tokenError)⟩, db)
          | .ok _, .error tokenError =>
            (⟨500, .error ("Token generation failed: " ++ tokenError)⟩, db)
  | _, _ => (⟨400, .error "username and password are required"⟩, db)

/-- The body of the `try` block of `refresh`: verification of the presented token and
minting of the new pair; an exception is the `.error` case. -/
def refreshTry (env : Env) (token : String) (now : Nat) : Except String (String × String) :=
  match jwtVerify env token env.JWT_SECRET now with
  | .error err => .error err
  | .ok decoded =>
    match jwtSign env decoded.id decoded.username env.JWT_SECRET ACCESS_EXPIRES now with
    | .error err => .error err
    | .ok newAccessToken =>
      match jwtSign env decoded.id decoded.username env.JWT_SECRET REFRESH_EXPIRES now with
      | .error err => .error err
      | .ok newRefreshToken => .ok (newAccessToken, newRefreshToken)

/-- The handler `refresh`, at clock second `now`. -/
def refresh (env : Env) (db : Db) (token : Option String) (now : Nat) : Response × Db :=
  if !truthy token then (⟨400, .error "Refresh token required"⟩, db)
  else
    match token with
    | none => (⟨400, .error "Refresh token required"⟩, db)
    | some token =>
      let hashed := hashToken env token
      match selectUserByRefreshToken db hashed with
      | none => (⟨403, .error "Invalid refresh token"⟩, db)
      | some user =>
        match refreshTry env token now with
        | .ok (newAccessToken, newRefreshToken) =>
          let newHashed := hashToken env newRefreshToken
          (⟨200, .tokens newAccessToken newRefreshToken⟩,
           updateRefreshTokenById db (some newHashed) user.id)
        | .error _ =>
          (⟨403, .error "Invalid or expired refresh token"⟩,
           updateRefreshTokenById db none user.id)

/-- The handler `logout`. -/
def logout (env : Env) (db : Db) (refreshToken : Option String) : Response × Db :=
  if !truthy refreshToken then (⟨400, .error "Refresh token required to logout"⟩, db)
  else
    match refreshToken with
    | none => (⟨400, .error "Refresh token required to logout"⟩, db)
    | some refreshToken =>
      let hashed := hashToken env refreshToken
      let result := clearRefreshTokenByValue db hashed
      if result.1 > 0 then (⟨200, .message "Logged out"⟩, result.2)
      else (⟨400, .error "Invalid refresh token"⟩, result.2)

/-- The test `message.includes(pattern)` of JavaScript strings. -/
def includes (message pattern : String) : Bool :=
  decide (pattern.data <:+: message.data)

/-- The statement `INSERT INTO users (first_name, middle_name, last_name, username, email,
password) VALUES (?, ?, ?, ?, ?, ?)`: the two UNIQUE constraints, the AUTOINCREMENT key and
the NULL default of `refresh_token`. The exception message is the `.error` case. -/
def insertUser (db : Db) (first_name : String) (middle_name : Option String)
    (last_name username email hashed : String) : Except String Db :=
  if db.users.any (fun u => decide (u.username = username)) then
    .error "UNIQUE constraint failed: users.username"
  else if db.users.any (fun u => decide (u.email = email)) then
    .error "UNIQUE constraint failed: users.email"
  else
    .ok { db with
          users := db.users ++ [{ id := db.userSeq + 1, first_name := first_name,
                                  middle_name := middle_name, last_name := last_name,
                                  username := username, email := email, password := hashed,
                                  refresh_token := none }]
          userSeq := db.userSeq + 1 }

/-- The handler `signup`. The argument `salt` is the entropy of `bcrypt.hashSync`, and
`fault` is an exception of the storage layer other than a constraint violation
(`none` when the statement runs). -/
def signup (env : Env) (db : Db)
    (first_name middle_name last_name username email password : Option String)
    (salt : Nat) (fault : Option String) : Response × Db :=
  match first_name, last_name, username, email, password with
  | some first_name, some last_name, some username, some email, some password =>
    if first_name = "" ∨ last_name = "" ∨ username = "" ∨ email = "" ∨ password = "" then
      (⟨400, .error "first_name, last_name, username, email and password are required"⟩, db)
    else if !env.isValidName first_name || !env.isValidName last_name then
      (⟨400, .error "Names must contain only letters, spaces, or hyphens (2–50 characters)"⟩, db)
    else if !env.isValidUsername username then
      (⟨400, .error "Username must be 3–20 characters long and contain only letters, numbers, or underscores"⟩, db)
    else if !env.isValidEmail email then
      (⟨400, .error "Email format is invalid. Example: name@example.com"⟩, db)
    else if !env.isValidPassword password then
      (⟨400, .error "Password format invalid. It must be at least 8 characters long and contain uppercase, lowercase, number, and special character (#?!@$%^&*.-_)"⟩, db)
    else
      let hashed := env.bcryptHash password salt
      let outcome : Except String Db :=
        match fault with
        | some err => .error err
        | none => insertUser db first_name middle_name last_name username email hashed
      match outcome with
      | .ok db1 => (⟨201, .message "User created successfully"⟩, db1)
      | .error err =>
        if includes err "UNIQUE" then (⟨400, .error "Username or email already exists"⟩, db)
        else (⟨500, .error "Database error"⟩, db)
  | _, _, _, _, _ =>
    (⟨400, .error "first_name, last_name, username, email and password are required"⟩, db)

/-! ## `userControllers.js`

The argument `userId` is `req.user.id`, the identity the `auth` middleware attached to the
request. -/

/-- The handler `changePassword`; `salt` is the entropy of `bcrypt.hashSync`. -/
def changePassword (env : Env) (db : Db) (userId : Nat)
    (oldPassword newPassword : Option String) (salt : Nat) : Response × Db :=
  match oldPassword, newPassword with
  | some oldPassword, some newPassword =>
    if oldPassword = "" ∨ newPassword = "" then
      (⟨400, .error "oldPassword and newPassword are required"⟩, db)
    else if !env.isValidPassword newPassword then
      (⟨400, .error "New password must be at least 8 characters long and contain uppercase, lowercase, number, and special character (#?!@$%^&*.-_)"⟩, db)
    else if oldPassword = newPassword then
      (⟨400, .error "New password must be different from the old password"⟩, db)
    else
      match selectUserById db userId with
      | none => (⟨404, .error "User not found"⟩, db)
      | some user =>
        if !env.bcryptCompare oldPassword user.password then
          (⟨400, .error "Old password is incorrect"⟩, db)
        else
          let hashed := env.bcryptHash newPassword salt
          let db1 := updatePasswordById db hashed userId
          let db2 := updateRefreshTokenById db1 none userId
          (⟨200, .message "Password changed successfully"⟩, db2)
  | _, _ => (⟨400, .error "oldPassword and newPassword are required"⟩, db)

/-- The outcome of each storage statement of `deleteAccount`, in program order: `none` when
the statement runs, `some message` when the storage layer throws an error with that
message instead (a statement that throws changes nothing). -/
structure Faults where
  select : Option String
  txDeleteTodos : Option String
  txDeleteUser : Option String
  txCommit : Option String
  fbDeleteTodos : Option String
  fbDeleteUser : Option String
deriving DecidableEq

/-- No statement fails. -/
def noFaults : Faults :=
  { select := none, txDeleteTodos := none, txDeleteUser := none, txCommit := none,
    fbDeleteTodos := none, fbDeleteUser := none }

/-- The statement `DELETE FROM todos WHERE user_id = ?`. -/
def deleteTodosByUser (db : Db) (userId : Nat) : Db :=
  { db with todos := db.todos.filter (fun t => !decide (t.user_id = some userId)) }

/-- The statement `DELETE FROM users WHERE id = ?`, with the number of deleted rows. While
the `foreign_keys` pragma is on, a user still referenced by a todo cannot be deleted. -/
def deleteUserById (db : Db) (userId : Nat) : Except String (Nat × Db) :=
  if db.foreign_keys && db.todos.any (fun t => decide (t.user_id = some userId)) then
    .error "FOREIGN KEY constraint failed"
  else
    .ok ((db.users.filter (fun u => decide (u.id = userId))).length,
         { db with users := db.users.filter (fun u => !decide (u.id = userId)) })

/-- The function `transaction` of `deleteAccount` as run by `db.transaction`: on an
exception everything is rolled back and the exception is thrown on, so only the committed
database is returned. -/
def deleteTransaction (db : Db) (userId : Nat) (faults : Faults) : Except String Db :=
  match faults.txDeleteTodos with
  | some err => .error err
  | none =>
    let db1 := deleteTodosByUser db userId
    match faults.txDeleteUser with
    | some err => .error err
    | none =>
      match deleteUserById db1 userId with
      | .error err => .error err
      | .ok (changes, db2) =>
        if changes = 0 then .error "Failed to delete user account"
        else
          match faults.txCommit with
          | some err => .error err
          | none => .ok db2

/-- The `catch` block of `deleteAccount`, entered with the message of the caught error. -/
def deleteAccountCatch (db : Db) (userId : Nat) (faults : Faults) (message : String) :
    Response × Db :=
  if includes message "FOREIGN KEY" then
    let db1 := { db with foreign_keys := false }
    match faults.fbDeleteTodos with
    | some err => (⟨500, .errorDetails "Failed to delete account" err⟩, db1)
    | none =>
      let db2 := deleteTodosByUser db1 userId
      match faults.fbDeleteUser with
      | some err => (⟨500, .errorDetails "Failed to delete account" err⟩, db2)
      | none =>
        match deleteUserById db2 userId with
        | .error err => (⟨500, .errorDetails "Failed to delete account" err⟩, db2)
        | .ok (_, db3) =>
          (⟨200, .message "Account deleted successfully"⟩, { db3 with foreign_keys := true })
  else
    (⟨500, .errorDetails "Failed to delete account" message⟩, db)

/-- The handler `deleteAccount`. -/
def deleteAccount (db : Db) (userId : Nat) (faults : Faults) : Response × Db :=
  match faults.select with
  | some err => deleteAccountCatch db userId faults err
  | none =>
    match selectUserById db userId with
    | none => (⟨404, .error "User not found"⟩, db)
    | some _ =>
      match deleteTransaction db userId faults with
      | .ok db1 => (⟨200, .message "Account deleted successfully"⟩, db1)
      | .error err => deleteAccountCatch db userId faults err

/-- Failures injected into `deleteAccount` that the storage layer can raise on the schema
of `database.js`. A foreign-key violation is raised by `deleteUserById` itself when a todo
still references the account; `todos` is the only table that references `users`, its
constraint is checked at once, and neither a `SELECT`, a `DELETE FROM todos` nor a
`COMMIT` can violate it. So no injected failure of the first four statements carries a
foreign-key message. -/
def SchemaPossible (faults : Faults) : Prop :=
  (∀ err, faults.select = some err → includes err "FOREIGN KEY" = false) ∧
  (∀ err, faults.txDeleteTodos = some err → includes err "FOREIGN KEY" = false) ∧
  (∀ err, faults.txDeleteUser = some err → includes err "FOREIGN KEY" = false) ∧
  (∀ err, faults.txCommit = some err → includes err "FOREIGN KEY" = false)

/-! ## Runs of the service and the fingerprint invariant -/

/-- The tokens a response hands out. -/
def issuedTokens (response : Response) : List String :=
  match response.body with
  | .tokens accessToken refreshToken => [accessToken, refreshToken]
  | .loginOk _ accessToken refreshToken _ => [accessToken, refreshToken]
  | _ => []

/-- The runs of the service from the empty store by the six handlers, under one
environment, with arbitrary requests, clock readings and storage faults:
`Reachable env issued presented db` says that a run ends in the store `db`, has handed out
the tokens `issued` and has been presented the tokens `presented` in calls of `refresh`. -/
inductive Reachable (env : Env) : List String → List String → Db → Prop where
  | init : Reachable env [] [] emptyDb
  | signup {issued presented : List String} {db : Db} (h : Reachable env issued presented db)
      (first_name middle_name last_name username email password : Option String)
      (salt : Nat) (fault : Option String) :
      Reachable env issued presented
        (MyApp.signup env db first_name middle_name last_name username email password
          salt fault).2
  | login {issued presented : List String} {db : Db} (h : Reachable env issued presented db)
      (username password : Option String) (now : Nat) :
      Reachable env (issuedTokens (MyApp.login env db username password now).1 ++ issued)
        presented (MyApp.login env db username password now).2
  | refresh {issued presented : List String} {db : Db}
      (h : Reachable env issued presented db) (token : Option String) (now : Nat) :
      Reachable env (issuedTokens (MyApp.refresh env db token now).1 ++ issued)
        (token.toList ++ presented) (MyApp.refresh env db token now).2
  | logout {issued presented : List String} {db : Db} (h : Reachable env issued presented db)
      (refreshToken : Option String) :
      Reachable env issued presented (MyApp.logout env db refreshToken).2
  | changePassword {issued presented : List String} {db : Db}
      (h : Reachable env issued presented db) (userId : Nat)
      (oldPassword newPassword : Option String) (salt : Nat) :
      Reachable env issued presented
        (MyApp.changePassword env db userId oldPassword newPassword salt).2
  | deleteAccount {issued presented : List String} {db : Db}
      (h : Reachable env issued presented db) (userId : Nat) (faults : Faults) :
      Reachable env issued presented (MyApp.deleteAccount db userId faults).2

/-- The digest is collision-free on the issued tokens: two issued tokens with the same
digest are the same token. -/
def CollisionFreeOn (env : Env) (issued : List String) : Prop :=
  ∀ a ∈ issued, ∀ b ∈ issued, hashToken env a = hashToken env b → a = b

/-- Verification returns the claims that were signed: an issued token decodes to the
payload it was serialised from, and a presented token that decodes under the secret is
one of the issued tokens. -/
def VerifyReturnsSigned (env : Env) (issued presented : List String) : Prop :=
  (∀ (key : String) (d : Decoded), env.JWT_SECRET = some key →
    env.jwsEncode d key ∈ issued → env.jwsDecode (env.jwsEncode d key) key = some d) ∧
  (∀ t ∈ presented, ∀ (key : String) (d : Decoded), env.JWT_SECRET = some key →
    env.jwsDecode t key = some d → t ∈ issued)

/-- The fingerprint `h` is the digest of an issued refresh token signed for the account
id `id`. -/
def IsFingerprintOf (env : Env) (issued : List String) (id : Nat) (h : String) : Prop :=
  ∃ (username : String) (iat : Nat) (r : String),
    jwtSign env id username env.JWT_SECRET REFRESH_EXPIRES iat = .ok r ∧ r ∈ issued ∧
      h = hashToken env r

/-- The fingerprint-ownership invariant of a store: primary keys are distinct and issued
by the AUTOINCREMENT counter, every stored fingerprint is the digest of an issued refresh
token signed for the id of its account, and a fingerprint is stored on one account only. -/
structure FingerprintOwned (env : Env) (issued : List String) (db : Db) : Prop where
  ids_nodup : (db.users.map User.id).Nodup
  ids_le_seq : ∀ u ∈ db.users, u.id ≤ db.userSeq
  owned : ∀ u ∈ db.users, ∀ h, u.refresh_token = some h → IsFingerprintOf env issued u.id h
  unique : ∀ u ∈ db.users, ∀ v ∈ db.users, ∀ h,
    u.refresh_token = some h → v.refresh_token = some h → u = v

/-! ## A concrete environment

A toy instance of the primitives in which every token and digest can be read off: a
token is `key|id|iat|exp|username`, the three numbers in decimal with the least
significant digit first. -/

/-- The list `l` without its leading copy of `key`, when it has one. -/
def dropKey : List Char → List Char → Option (List Char)
  | [], l => some l
  | _ :: _, [] => none
  | k :: ks, x :: xs => if k = x then dropKey ks xs else none

/-- The characters before the first bar, and those after it. -/
def splitBar : List Char → List Char × List Char
  | [] => ([], [])
  | x :: xs => if x = '|' then ([], xs) else (x :: (splitBar xs).1, (splitBar xs).2)

/-- Decimal digits of a number as characters, least significant first. -/
def numEncode (n : Nat) : List Char :=
  (Nat.digits 10 n).map (fun d => Char.ofNat (48 + d))

/-- The number written by a list of digit characters, least significant first. -/
def numDecode (cs : List Char) : Nat :=
  Nat.ofDigits 10 (cs.map (fun c => c.toNat - 48))

/-- Toy serialisation: `key|id|iat|exp|username`. -/
def demoEncode (d : Decoded) (key : String) : String :=
  String.mk (key.data ++ '|' :: (numEncode d.id ++ '|' ::
    (numEncode d.iat ++ '|' :: (numEncode d.exp ++ '|' :: d.username.data))))

/-- Toy parse of `demoEncode`, failing on a token that does not start with the key. -/
def demoDecode (token key : String) : Option Decoded :=
  match dropKey (key.data ++ ['|']) token.data with
  | none => none
  | some r0 =>
    let f1 := splitBar r0
    let f2 := splitBar f1.2
    let f3 := splitBar f2.2
    some { id := numDecode f1.1, username := String.mk f3.2,
           iat := numDecode f2.1, exp := numDecode f3.1 }

/-- The toy environment, with the signing secret set. -/
def demoEnv : Env :=
  { JWT_SECRET := some "k"
    sha256hex := fun t => String.mk ('#' :: t.data)
    jwsEncode := demoEncode
    jwsDecode := demoDecode
    bcryptHash := fun password _ => String.mk ('$' :: password.data)
    bcryptCompare := fun password hash => decide (hash = String.mk ('$' :: password.data))
    isValidName := fun s => decide (2 ≤ s.length ∧ s.length ≤ 50)
    isValidPassword := fun s => decide (8 ≤ s.length)
    isValidUsername := fun s => decide (3 ≤ s.length ∧ s.length ≤ 20)
    isValidEmail := fun s => decide ('@' ∈ s.data) }

/-- The toy environment with `JWT_SECRET` unset. -/
def demoEnvNoSecret : Env :=
  { demoEnv with JWT_SECRET := none }

/-- The account of alice, as `signup` stores it, with the given fingerprint. -/
def alice (fingerprint : Option String) : User :=
  { id := 1, first_name := "Alice", middle_name := none, last_name := "Doe",
    username := "alice", email := "alice@example.com", password := "$Abcd1234!",
    refresh_token := fingerprint }

/-- The account of bob, with the given fingerprint. -/
def bob (fingerprint : Option String) : User :=
  { id := 2, first_name := "Bob", middle_name := none, last_name := "Roe",
    username := "bobby", email := "bob@example.com", password := "$Efgh5678?",
    refresh_token := fingerprint }

/-- A store with the two accounts and the given fingerprints, and one todo of alice. -/
def demoDb (fa fb : Option String) : Db :=
  { users := [alice fa, bob fb]
    todos := [{ id := 1, user_id := some 1, task := "write tests", completed := 0 }]
    userSeq := 2
    foreign_keys := true }

/-- The access token `login` mints for alice at clock second `now`. -/
def aliceAccessToken (now : Nat) : String :=
  demoEncode { id := 1, username := "alice", iat := now, exp := now + ACCESS_EXPIRES } "k"

/-- The public profile of alice. -/
def aliceProfile : Profile :=
  { id := 1, first_name := "Alice", middle_name := none, last_name := "Doe",
    username := "alice", email := "alice@example.com" }


/-- The refresh token `login` mints for alice at clock second `now`. -/
def aliceToken (now : Nat) : String :=
  demoEncode { id := 1, username := "alice", iat := now, exp := now + REFRESH_EXPIRES } "k"

/-- The store with the account of alice alone, as `signup` creates it on the empty store,
with the given fingerprint. -/
def aliceDb (fingerprint : Option String) : Db :=
  { users := [alice fingerprint], todos := [], userSeq := 1, foreign_keys := true }

/-- The store after alice has signed up on the empty store, logged in at second 100 and
refreshed her token at second 160. -/
def demoReached : Db :=
  aliceDb (some (hashToken demoEnv (aliceToken 160)))

/-- The tokens handed out on the way to `demoReached`. -/
def demoIssued : List String :=
  [aliceAccessToken 160, aliceToken 160, aliceAccessToken 100, aliceToken 100]

/-- The tokens presented to `refresh` on the way to `demoReached`. -/
def demoPresented : List String :=
  [aliceToken 100]

/-- Storage outcomes under which the `DELETE FROM users` of the transaction fails on the
disk. -/
def diskFaults : Faults :=
  { noFaults with txDeleteUser := some "disk I/O error" }

/-! ## Storage lemmas -/

theorem truthy_some (t : String) : truthy (some t) = true ↔ t ≠ "" := by
  simp [truthy]

theorem selectUserByRefreshToken_eq_none {db : Db} {hashed : String}
    (h : ∀ u ∈ db.users, u.refresh_token ≠ some hashed) :
    selectUserByRefreshToken db hashed = none := by
  unfold selectUserByRefreshToken
  rw [List.find?_eq_none]
  intro u hu
  simpa using h u hu

theorem selectUserByRefreshToken_some {db : Db} {hashed : String} {user : User}
    (h : selectUserByRefreshToken db hashed = some user) :
    user ∈ db.users ∧ user.refresh_token = some hashed := by
  unfold selectUserByRefreshToken at h
  exact ⟨List.mem_of_find?_eq_some h, by simpa using List.find?_some h⟩

theorem selectUserByRefreshToken_isSome {db : Db} {hashed : String} {u : User}
    (hu : u ∈ db.users) (h : u.refresh_token = some hashed) :
    ∃ user, selectUserByRefreshToken db hashed = some user := by
  cases hsel : selectUserByRefreshToken db hashed with
  | some user => exact ⟨user, rfl⟩
  | none =>
    unfold selectUserByRefreshToken at hsel
    rw [List.find?_eq_none] at hsel
    exact absurd h (by simpa using hsel u hu)

theorem mem_updateRefreshTokenById {db : Db} {value : Option String} {id : Nat} {v : User} :
    v ∈ (updateRefreshTokenById db value id).users ↔
      ∃ u ∈ db.users, v = if u.id = id then { u with refresh_token := value } else u := by
  simp only [updateRefreshTokenById, List.mem_map]
  constructor
  · rintro ⟨u, hu, rfl⟩
    exact ⟨u, hu, rfl⟩
  · rintro ⟨u, hu, rfl⟩
    exact ⟨u, hu, rfl⟩

/-- After the update every row of the account holds the new value. -/
theorem updateRefreshTokenById_same {db : Db} {value : Option String} {id : Nat} {v : User}
    (hv : v ∈ (updateRefreshTokenById db value id).users) (hid : v.id = id) :
    v.refresh_token = value := by
  obtain ⟨u, _, rfl⟩ := mem_updateRefreshTokenById.1 hv
  by_cases h : u.id = id
  · simp [h]
  · simp [h] at hid

/-- The update leaves the rows of every other account as they were. -/
theorem updateRefreshTokenById_other {db : Db} {value : Option String} {id : Nat} {v : User}
    (hid : v.id ≠ id) :
    v ∈ (updateRefreshTokenById db value id).users ↔ v ∈ db.users := by
  rw [mem_updateRefreshTokenById]
  constructor
  · rintro ⟨u, hu, rfl⟩
    by_cases h : u.id = id
    · simp [h] at hid
    · simpa [h] using hu
  · intro hv
    exact ⟨v, hv, by simp [hid]⟩

/-- The update keeps the row of the account, with the new value. -/
theorem updateRefreshTokenById_row {db : Db} {value : Option String} {u : User}
    (hu : u ∈ db.users) :
    { u with refresh_token := value } ∈ (updateRefreshTokenById db value u.id).users :=
  mem_updateRefreshTokenById.2 ⟨u, hu, by simp⟩

theorem clearRefreshTokenByValue_unmatched {db : Db} {hashed : String}
    (h : ∀ u ∈ db.users, u.refresh_token ≠ some hashed) :
    clearRefreshTokenByValue db hashed = (0, db) := by
  have hmap : List.map
      (fun u : User => if u.refresh_token = some hashed then { u with refresh_token := none } else u)
      db.users = db.users := by
    conv_rhs => rw [← List.map_id db.users]
    apply List.map_congr_left
    intro u hu
    simp [h u hu]
  have hfil : db.users.filter (fun u => decide (u.refresh_token = some hashed)) = [] := by
    rw [List.filter_eq_nil_iff]
    intro u hu
    simpa using h u hu
  simp only [clearRefreshTokenByValue, hmap, hfil, List.length_nil]

theorem clearRefreshTokenByValue_matched {db : Db} {hashed : String} {u : User}
    (hu : u ∈ db.users) (h : u.refresh_token = some hashed) :
    0 < (clearRefreshTokenByValue db hashed).1 := by
  simp only [clearRefreshTokenByValue]
  apply List.length_pos_of_mem (a := u)
  simp [List.mem_filter, hu, h]

theorem clearRefreshTokenByValue_cleared {db : Db} {hashed : String} {v : User}
    (hv : v ∈ (clearRefreshTokenByValue db hashed).2.users) :
    v.refresh_token ≠ some hashed := by
  simp only [clearRefreshTokenByValue, List.mem_map] at hv
  obtain ⟨u, _, rfl⟩ := hv
  by_cases h : u.refresh_token = some hashed
  · simp [h]
  · simp [h]

/-! ## The concrete environment is a sound instance of the primitives -/

theorem dropKey_append (k l : List Char) : dropKey k (k ++ l) = some l := by
  induction k with
  | nil => cases l <;> rfl
  | cons a k ih => simp [dropKey, ih]

theorem splitBar_append (l r : List Char) (h : '|' ∉ l) :
    splitBar (l ++ '|' :: r) = (l, r) := by
  induction l with
  | nil => simp [splitBar]
  | cons a l ih =>
    have ha : a ≠ '|' := fun e => h (by simp [e])
    have hl : '|' ∉ l := fun e => h (List.mem_cons_of_mem _ e)
    simp [splitBar, ha, ih hl]

theorem digitChar_toNat (d : Nat) (hd : d < 10) : (Char.ofNat (48 + d)).toNat - 48 = d := by
  interval_cases d <;> rfl

theorem digitChar_ne_bar (d : Nat) (hd : d < 10) : Char.ofNat (48 + d) ≠ '|' := by
  interval_cases d <;> decide

theorem numEncode_no_bar (n : Nat) : '|' ∉ numEncode n := by
  intro h
  simp only [numEncode, List.mem_map] at h
  obtain ⟨d, hd, hc⟩ := h
  exact digitChar_ne_bar d (Nat.digits_lt_base (by norm_num) hd) hc

theorem numDecode_numEncode (n : Nat) : numDecode (numEncode n) = n := by
  have hmap : List.map (fun c : Char => c.toNat - 48)
      (List.map (fun d => Char.ofNat (48 + d)) (Nat.digits 10 n)) = Nat.digits 10 n := by
    rw [List.map_map]
    conv_rhs => rw [← List.map_id (Nat.digits 10 n)]
    apply List.map_congr_left
    intro d hd
    exact digitChar_toNat d (Nat.digits_lt_base (by norm_num) hd)
  simp only [numDecode, numEncode, hmap, Nat.ofDigits_digits]

/-- In the concrete environment verification returns the claims that were signed. -/
theorem demoDecode_demoEncode (d : Decoded) (key : String) :
    demoDecode (demoEncode d key) key = some d := by
  have hdrop : ∀ r : List Char,
      dropKey (key.data ++ ['|']) (key.data ++ '|' :: r) = some r := by
    intro r
    have h := dropKey_append (key.data ++ ['|']) r
    simpa using h
  simp only [demoDecode, demoEncode, hdrop,
    splitBar_append _ _ (numEncode_no_bar _), numDecode_numEncode]

/-- The serialisation of the concrete environment is never the empty string. -/
theorem demoEncode_ne_empty (d : Decoded) (key : String) : demoEncode d key ≠ "" := by
  intro h
  have h1 : (demoEncode d key).data = [] := by
    rw [h]
  simp only [demoEncode] at h1
  exact List.cons_ne_nil _ _ (List.append_eq_nil.1 h1).2

/-- The digest of the concrete environment is injective. -/
theorem demoEnv_sha256hex_injective (a b : String)
    (h : demoEnv.sha256hex a = demoEnv.sha256hex b) : a = b := by
  have h1 := congrArg String.data h
  simp only [demoEnv, List.cons.injEq, true_and] at h1
  exact String.ext h1

/-! ## Verification and minting -/

theorem jwtVerify_ok_iff (env : Env) (t : String) (secret : Option String) (now : Nat)
    (d : Decoded) :
    jwtVerify env t secret now = .ok d ↔
      t ≠ "" ∧ ∃ key, secret = some key ∧ key ≠ "" ∧ env.jwsDecode t key = some d ∧
        now < d.exp := by
  unfold jwtVerify
  by_cases ht : t = ""
  · simp [ht]
  · cases secret with
    | none => simp [ht]
    | some key =>
      by_cases hk : key = ""
      · simp [ht, hk]
      · cases hdec : env.jwsDecode t key with
        | none => simp [ht, hk, hdec]
        | some d1 =>
          by_cases hexp : now ≥ d1.exp
          · simp only [ht, hk, hdec, hexp, if_true, if_false]
            constructor
            · intro h
              cases h
            · rintro ⟨_, k, hk1, _, hd1, hlt⟩
              cases hk1
              rw [hdec] at hd1
              cases hd1
              omega
          · simp only [ht, hk, hdec, hexp, if_false]
            constructor
            · intro h
              cases h
              exact ⟨ht, key, rfl, hk, hdec, by omega⟩
            · rintro ⟨_, k, hk1, _, hd1, _⟩
              cases hk1
              rw [hdec] at hd1
              cases hd1
              rfl

/-- A refresh whose non-empty token resolves to no account is answered 403 and changes
nothing. -/
theorem refresh_of_unmatched {env : Env} {db : Db} {t : String} (now : Nat) (ht : t ≠ "")
    (hno : ∀ u ∈ db.users, u.refresh_token ≠ some (hashToken env t)) :
    refresh env db (some t) now = (⟨403, .error "Invalid refresh token"⟩, db) := by
  simp [refresh, truthy, ht, selectUserByRefreshToken_eq_none hno]

/-- A login with well-formed credentials of an existing account under a configured secret
mints both tokens at the clock second of the call and stores the digest of the refresh
token on the account. -/
theorem login_of_valid {env : Env} {db : Db} {username password key : String} {user : User}
    (now : Nat) (hu : username ≠ "") (hp : password ≠ "")
    (hvu : env.isValidUsername username = true) (hvp : env.isValidPassword password = true)
    (hfind : selectUserByUsername db username = some user)
    (hpw : env.bcryptCompare password user.password = true)
    (hkey : env.JWT_SECRET = some key) (hk : key ≠ "") :
    login env db (some username) (some password) now =
      (⟨200, .loginOk "Login successful"
          (env.jwsEncode ⟨user.id, user.username, now, now + ACCESS_EXPIRES⟩ key)
          (env.jwsEncode ⟨user.id, user.username, now, now + REFRESH_EXPIRES⟩ key)
          { id := user.id, first_name := user.first_name, middle_name := user.middle_name,
            last_name := user.last_name, username := user.username, email := user.email }⟩,
       updateRefreshTokenById db
        (some (hashToken env (env.jwsEncode ⟨user.id, user.username, now, now + REFRESH_EXPIRES⟩ key)))
        user.id) := by
  simp [login, hu, hp, hvu, hvp, hfind, hpw, hkey, hk, truthy, signAccessToken,
    signRefreshToken, jwtSign]

/-- A refresh whose token resolves to an account and verifies mints a pair from the decoded
claims and stores the digest of the new refresh token on that account. -/
theorem refresh_of_verified {env : Env} {db : Db} {t : String} {now : Nat} {user : User}
    {decoded : Decoded}
    (hsel : selectUserByRefreshToken db (hashToken env t) = some user)
    (hver : jwtVerify env t env.JWT_SECRET now = .ok decoded) :
    ∃ key, env.JWT_SECRET = some key ∧ key ≠ "" ∧
      refresh env db (some t) now =
        (⟨200, .tokens
            (env.jwsEncode ⟨decoded.id, decoded.username, now, now + ACCESS_EXPIRES⟩ key)
            (env.jwsEncode ⟨decoded.id, decoded.username, now, now + REFRESH_EXPIRES⟩ key)⟩,
         updateRefreshTokenById db
          (some (hashToken env
            (env.jwsEncode ⟨decoded.id, decoded.username, now, now + REFRESH_EXPIRES⟩ key)))
          user.id) := by
  obtain ⟨ht, key, hkey, hk, _, _⟩ := (jwtVerify_ok_iff env t env.JWT_SECRET now decoded).1 hver
  refine ⟨key, hkey, hk, ?_⟩
  have hver1 := hver
  rw [hkey] at hver1
  have htry : refreshTry env t now = .ok
      (env.jwsEncode ⟨decoded.id, decoded.username, now, now + ACCESS_EXPIRES⟩ key,
       env.jwsEncode ⟨decoded.id, decoded.username, now, now + REFRESH_EXPIRES⟩ key) := by
    simp [refreshTry, hver1, jwtSign, hkey, hk]
  simp [refresh, truthy, ht, hsel, htry]

/-- A refresh whose non-empty token resolves to an account but does not verify clears the
fingerprint of that account and is answered 403. -/
theorem refresh_of_failed {env : Env} {db : Db} {t : String} {now : Nat} {user : User}
    {err : String} (ht : t ≠ "")
    (hsel : selectUserByRefreshToken db (hashToken env t) = some user)
    (hver : jwtVerify env t env.JWT_SECRET now = .error err) :
    refresh env db (some t) now =
      (⟨403, .error "Invalid or expired refresh token"⟩,
       updateRefreshTokenById db none user.id) := by
  have htry : refreshTry env t now = .error err := by
    simp [refreshTry, hver]
  simp [refresh, truthy, ht, hsel, htry]

/-! ## The handlers on the concrete store -/

theorem demo_select_alice (h : String) (fb : Option String) :
    selectUserByRefreshToken (demoDb (some h) fb) h = some (alice (some h)) := by
  simp [selectUserByRefreshToken, demoDb, alice]

theorem demo_update_alice (fa fb value : Option String) :
    updateRefreshTokenById (demoDb fa fb) value 1 = demoDb value fb := by
  simp [updateRefreshTokenById, demoDb, alice, bob]

theorem demo_verify_alice (iat now : Nat) (h : now < iat + REFRESH_EXPIRES) :
    jwtVerify demoEnv (aliceToken iat) demoEnv.JWT_SECRET now =
      .ok ⟨1, "alice", iat, iat + REFRESH_EXPIRES⟩ := by
  rw [jwtVerify_ok_iff]
  exact ⟨demoEncode_ne_empty _ _, "k", rfl, by decide,
    demoDecode_demoEncode ⟨1, "alice", iat, iat + REFRESH_EXPIRES⟩ "k", h⟩

theorem demo_verify_alice_expired (iat now : Nat) (h : iat + REFRESH_EXPIRES ≤ now) :
    jwtVerify demoEnv (aliceToken iat) demoEnv.JWT_SECRET now = .error "jwt expired" := by
  have hdec : demoEnv.jwsDecode (aliceToken iat) "k" =
      some ⟨1, "alice", iat, iat + REFRESH_EXPIRES⟩ :=
    demoDecode_demoEncode ⟨1, "alice", iat, iat + REFRESH_EXPIRES⟩ "k"
  have hne : aliceToken iat ≠ "" := demoEncode_ne_empty _ _
  have hk : demoEnv.JWT_SECRET = some "k" := rfl
  simp [jwtVerify, hne, hk, hdec, h]

theorem demo_login_alice (fa fb : Option String) (now : Nat) :
    login demoEnv (demoDb fa fb) (some "alice") (some "Abcd1234!") now =
      (⟨200, .loginOk "Login successful" (aliceAccessToken now) (aliceToken now) aliceProfile⟩,
       demoDb (some (hashToken demoEnv (aliceToken now))) fb) := by
  have hfind : selectUserByUsername (demoDb fa fb) "alice" = some (alice fa) := by
    simp [selectUserByUsername, demoDb, alice]
  have hpw : demoEnv.bcryptCompare "Abcd1234!" (alice fa).password = true := by
    simp [demoEnv, alice]
  have h := @login_of_valid demoEnv (demoDb fa fb) "alice" "Abcd1234!" "k" (alice fa) now
    (by decide) (by decide) (by decide) (by decide) hfind hpw rfl (by decide)
  rw [h]
  exact Prod.ext rfl (demo_update_alice fa fb _)

theorem demo_refresh_alice (fb : Option String) (iat now : Nat)
    (h : now < iat + REFRESH_EXPIRES) :
    refresh demoEnv (demoDb (some (hashToken demoEnv (aliceToken iat))) fb)
        (some (aliceToken iat)) now =
      (⟨200, .tokens (aliceAccessToken now) (aliceToken now)⟩,
       demoDb (some (hashToken demoEnv (aliceToken now))) fb) := by
  obtain ⟨key, hkey, _, href⟩ :=
    refresh_of_verified (demo_select_alice _ fb) (demo_verify_alice iat now h)
  cases (Option.some.inj hkey : "k" = key)
  rw [href]
  exact Prod.ext rfl (demo_update_alice _ fb _)

/-! ## Login -/

/-- C2: a login with a well-formed username and password of an existing account, under a
configured secret, answers 200 with an access token and a refresh token `r`; afterwards
every row of that account holds the non-null fingerprint `hashToken r` whatever it held
before, the row is otherwise the same, and the rows of other accounts and the other
tables are unchanged. -/
theorem login_stores_fingerprint (env : Env) (db : Db) (username password key : String)
    (now : Nat) (user : User)
    (hu : username ≠ "") (hp : password ≠ "")
    (hvu : env.isValidUsername username = true) (hvp : env.isValidPassword password = true)
    (hfind : selectUserByUsername db username = some user)
    (hpw : env.bcryptCompare password user.password = true)
    (hkey : env.JWT_SECRET = some key) (hk : key ≠ "") :
    ∃ accessToken r : String,
      signAccessToken env user now = .ok accessToken ∧
      signRefreshToken env user now = .ok r ∧
      login env db (some username) (some password) now =
        (⟨200, .loginOk "Login successful" accessToken r
            { id := user.id, first_name := user.first_name, middle_name := user.middle_name,
              last_name := user.last_name, username := user.username, email := user.email }⟩,
         updateRefreshTokenById db (some (hashToken env r)) user.id) ∧
      (∀ v ∈ (login env db (some username) (some password) now).2.users,
        v.id = user.id → v.refresh_token = some (hashToken env r)) ∧
      { user with refresh_token := some (hashToken env r) } ∈
        (login env db (some username) (some password) now).2.users ∧
      (∀ v : User, v.id ≠ user.id →
        (v ∈ (login env db (some username) (some password) now).2.users ↔ v ∈ db.users)) ∧
      (login env db (some username) (some password) now).2.todos = db.todos := by
  have hmem : user ∈ db.users := List.mem_of_find?_eq_some hfind
  have hlogin := login_of_valid now hu hp hvu hvp hfind hpw hkey hk
  refine ⟨_, _, ?_, ?_, hlogin, ?_, ?_, ?_, ?_⟩
  · simp [signAccessToken, jwtSign, hkey, hk]
  · simp [signRefreshToken, jwtSign, hkey, hk]
  · intro v hv hid
    rw [hlogin] at hv
    exact updateRefreshTokenById_same hv hid
  · rw [hlogin]
    exact updateRefreshTokenById_row hmem
  · intro v hid
    rw [hlogin]
    exact updateRefreshTokenById_other hid
  · rw [hlogin]
    rfl

/-- Instance of `login_stores_fingerprint`: alice logs in at second 100 while an older
fingerprint is stored, and bob keeps his. -/
theorem login_stores_fingerprint_witness :
    selectUserByUsername (demoDb (some "#old") (some "#other")) "alice" =
      some (alice (some "#old")) ∧
    demoEnv.bcryptCompare "Abcd1234!" (alice (some "#old")).password = true ∧
    ∃ accessToken r : String,
      signRefreshToken demoEnv (alice (some "#old")) 100 = .ok r ∧
      (login demoEnv (demoDb (some "#old") (some "#other")) (some "alice")
          (some "Abcd1234!") 100).1 =
        ⟨200, .loginOk "Login successful" accessToken r aliceProfile⟩ ∧
      alice (some (hashToken demoEnv r)) ∈
        (login demoEnv (demoDb (some "#old") (some "#other")) (some "alice")
          (some "Abcd1234!") 100).2.users ∧
      bob (some "#other") ∈
        (login demoEnv (demoDb (some "#old") (some "#other")) (some "alice")
          (some "Abcd1234!") 100).2.users := by
  have hfind : selectUserByUsername (demoDb (some "#old") (some "#other")) "alice" =
      some (alice (some "#old")) := by decide
  have hpw : demoEnv.bcryptCompare "Abcd1234!" (alice (some "#old")).password = true := by
    decide
  obtain ⟨a, r, _, hr, hlogin, _, hrow, hother, _⟩ :=
    login_stores_fingerprint demoEnv (demoDb (some "#old") (some "#other")) "alice"
      "Abcd1234!" "k" 100 (alice (some "#old")) (by decide) (by decide) (by decide)
      (by decide) hfind hpw rfl (by decide)
  refine ⟨hfind, hpw, a, r, hr, ?_, hrow, ?_⟩
  · rw [hlogin]
    rfl
  · exact (hother (bob (some "#other")) (by decide)).2 (by decide)

/-! ## Refresh with an unmatched token -/

/-- C3 as stated fails: an empty token, whose digest is stored on no account, is answered
400 "Refresh token required" and not 403 "Invalid refresh token". -/
theorem refresh_unmatched_empty_counterexample :
    ¬ ∀ (env : Env) (db : Db) (t : String) (now : Nat),
        (∀ u ∈ db.users, u.refresh_token ≠ some (hashToken env t)) →
        refresh env db (some t) now = (⟨403, .error "Invalid refresh token"⟩, db) := by
  intro h
  have h1 := h demoEnv emptyDb "" 0 (by simp [emptyDb])
  have h2 : refresh demoEnv emptyDb (some "") 0 =
      (⟨400, .error "Refresh token required"⟩, emptyDb) := by
    simp [refresh, truthy]
  rw [h2] at h1
  exact absurd h1 (by decide)

/-- C3, amended: a non-empty token whose digest is stored on no account is answered
403 "Invalid refresh token" and the store is unchanged. -/
theorem refresh_unmatched_rejected (env : Env) (db : Db) (t : String) (now : Nat)
    (ht : t ≠ "") (hno : ∀ u ∈ db.users, u.refresh_token ≠ some (hashToken env t)) :
    refresh env db (some t) now = (⟨403, .error "Invalid refresh token"⟩, db) :=
  refresh_of_unmatched now ht hno

/-- Instance of `refresh_unmatched_rejected`: a token that was never issued. -/
theorem refresh_unmatched_rejected_witness :
    "stale" ≠ "" ∧
    (∀ u ∈ (demoDb (some "#live") none).users,
      u.refresh_token ≠ some (hashToken demoEnv "stale")) ∧
    refresh demoEnv (demoDb (some "#live") none) (some "stale") 7 =
      (⟨403, .error "Invalid refresh token"⟩, demoDb (some "#live") none) :=
  ⟨by decide, by decide,
   refresh_unmatched_rejected demoEnv (demoDb (some "#live") none) "stale" 7
     (by decide) (by decide)⟩

/-! ## Logout -/

/-- C7: for a non-empty token `t`, when the digest of `t` is stored on an account, logout
answers 200 "Logged out", sets every such fingerprint to null and changes nothing else,
and a refresh with `t` afterwards is answered 403 "Invalid refresh token"; otherwise
logout answers 400 "Invalid refresh token" and the store is unchanged. -/
theorem logout_clears_or_rejects (env : Env) (db : Db) (t : String) (ht : t ≠ "") :
    ((∃ u ∈ db.users, u.refresh_token = some (hashToken env t)) →
      (logout env db (some t)).1 = ⟨200, .message "Logged out"⟩ ∧
      (logout env db (some t)).2 =
        { db with
          users := List.map
            (fun u =>
              if u.refresh_token = some (hashToken env t) then { u with refresh_token := none }
              else u)
            db.users } ∧
      (∀ v ∈ (logout env db (some t)).2.users, v.refresh_token ≠ some (hashToken env t)) ∧
      ∀ now : Nat,
        refresh env (logout env db (some t)).2 (some t) now =
          (⟨403, .error "Invalid refresh token"⟩, (logout env db (some t)).2)) ∧
    ((∀ u ∈ db.users, u.refresh_token ≠ some (hashToken env t)) →
      logout env db (some t) = (⟨400, .error "Invalid refresh token"⟩, db)) := by
  constructor
  · rintro ⟨u, hu, hfp⟩
    have hpos := clearRefreshTokenByValue_matched hu hfp
    have hlog : logout env db (some t) =
        (⟨200, .message "Logged out"⟩, (clearRefreshTokenByValue db (hashToken env t)).2) := by
      simp [logout, truthy, ht, hpos]
    have hclr : ∀ v ∈ (logout env db (some t)).2.users,
        v.refresh_token ≠ some (hashToken env t) := by
      intro v hv
      rw [hlog] at hv
      exact clearRefreshTokenByValue_cleared hv
    refine ⟨by rw [hlog], by rw [hlog]; rfl, hclr, ?_⟩
    intro now
    exact refresh_of_unmatched now ht hclr
  · intro hno
    simp [logout, truthy, ht, clearRefreshTokenByValue_unmatched hno]

/-- Instance of `logout_clears_or_rejects`: alice logs out with her live token. -/
theorem logout_clears_or_rejects_witness :
    "live" ≠ "" ∧
    logout demoEnv (demoDb (some "#live") (some "#other")) (some "live") =
      (⟨200, .message "Logged out"⟩, demoDb none (some "#other")) ∧
    refresh demoEnv (demoDb none (some "#other")) (some "live") 7 =
      (⟨403, .error "Invalid refresh token"⟩, demoDb none (some "#other")) ∧
    logout demoEnv (demoDb none (some "#other")) (some "live") =
      (⟨400, .error "Invalid refresh token"⟩, demoDb none (some "#other")) := by
  have h := logout_clears_or_rejects demoEnv (demoDb (some "#live") (some "#other")) "live"
    (by decide)
  have h1 := h.1 ⟨alice (some "#live"), by decide, by decide⟩
  have hdb : (logout demoEnv (demoDb (some "#live") (some "#other")) (some "live")).2 =
      demoDb none (some "#other") := by
    rw [h1.2.1]
    decide
  refine ⟨by decide, ?_, ?_, ?_⟩
  · exact Prod.ext h1.1 hdb
  · have h3 := h1.2.2.2 7
    rwa [hdb] at h3
  · exact (logout_clears_or_rejects demoEnv (demoDb none (some "#other")) "live"
      (by decide)).2 (by decide)

/-! ## Refresh with a live token -/

/-- C4 as stated fails: a token that is live for an account but has expired is answered
403, not 200. -/
theorem refresh_live_expired_counterexample :
    ¬ ∀ (env : Env) (db : Db) (t : String) (now : Nat) (u : User),
        u ∈ db.users → u.refresh_token = some (hashToken env t) →
        (refresh env db (some t) now).1.status = 200 := by
  intro h
  have h1 := h demoEnv (demoDb (some (hashToken demoEnv (aliceToken 100))) none)
    (aliceToken 100) (100 + REFRESH_EXPIRES) (alice (some (hashToken demoEnv (aliceToken 100))))
    (by simp [demoDb]) rfl
  have h2 : refresh demoEnv (demoDb (some (hashToken demoEnv (aliceToken 100))) none)
      (some (aliceToken 100)) (100 + REFRESH_EXPIRES) =
      (⟨403, .error "Invalid or expired refresh token"⟩,
       updateRefreshTokenById (demoDb (some (hashToken demoEnv (aliceToken 100))) none) none
        (alice (some (hashToken demoEnv (aliceToken 100)))).id) :=
    refresh_of_failed (demoEncode_ne_empty _ _) (demo_select_alice _ none)
      (demo_verify_alice_expired 100 (100 + REFRESH_EXPIRES) (le_refl _))
  rw [h2] at h1
  exact absurd h1 (by decide)

/-- C4, amended: when a token `t` is live for an account and passes verification at the
time of the call, refresh answers 200 with an access token and a refresh token `r` minted
from the decoded claims, and afterwards the account the fingerprint lookup resolves `t`
to (that account, when no other account holds the same fingerprint) stores
`hashToken r`. -/
theorem refresh_live_verified_succeeds (env : Env) (db : Db) (t : String) (now : Nat)
    (u : User) (decoded : Decoded)
    (hu : u ∈ db.users) (hlive : u.refresh_token = some (hashToken env t))
    (hver : jwtVerify env t env.JWT_SECRET now = .ok decoded) :
    ∃ (user : User) (accessToken r : String),
      selectUserByRefreshToken db (hashToken env t) = some user ∧
      user ∈ db.users ∧ user.refresh_token = some (hashToken env t) ∧
      ((∀ v ∈ db.users, v.refresh_token = some (hashToken env t) → v = u) → user = u) ∧
      jwtSign env decoded.id decoded.username env.JWT_SECRET ACCESS_EXPIRES now =
        .ok accessToken ∧
      jwtSign env decoded.id decoded.username env.JWT_SECRET REFRESH_EXPIRES now = .ok r ∧
      refresh env db (some t) now =
        (⟨200, .tokens accessToken r⟩,
         updateRefreshTokenById db (some (hashToken env r)) user.id) ∧
      (∀ v ∈ (refresh env db (some t) now).2.users,
        v.id = user.id → v.refresh_token = some (hashToken env r)) ∧
      { user with refresh_token := some (hashToken env r) } ∈
        (refresh env db (some t) now).2.users := by
  obtain ⟨user, hsel⟩ := selectUserByRefreshToken_isSome hu hlive
  obtain ⟨hmem, hfp⟩ := selectUserByRefreshToken_some hsel
  obtain ⟨key, hkey, hk, href⟩ := refresh_of_verified hsel hver
  refine ⟨user, _, _, hsel, hmem, hfp, fun huniq => huniq user hmem hfp, ?_, ?_, href, ?_, ?_⟩
  · simp [jwtSign, hkey, hk]
  · simp [jwtSign, hkey, hk]
  · intro v hv hid
    rw [href] at hv
    exact updateRefreshTokenById_same hv hid
  · rw [href]
    exact updateRefreshTokenById_row hmem

/-- Instance of `refresh_live_verified_succeeds`: alice refreshes at second 160 the token
she got at second 100. -/
theorem refresh_live_verified_succeeds_witness :
    alice (some (hashToken demoEnv (aliceToken 100))) ∈
      (demoDb (some (hashToken demoEnv (aliceToken 100))) none).users ∧
    jwtVerify demoEnv (aliceToken 100) demoEnv.JWT_SECRET 160 =
      .ok ⟨1, "alice", 100, 100 + REFRESH_EXPIRES⟩ ∧
    ∃ (user : User) (accessToken r : String),
      jwtSign demoEnv 1 "alice" demoEnv.JWT_SECRET REFRESH_EXPIRES 160 = .ok r ∧
      refresh demoEnv (demoDb (some (hashToken demoEnv (aliceToken 100))) none)
          (some (aliceToken 100)) 160 =
        (⟨200, .tokens accessToken r⟩,
         updateRefreshTokenById (demoDb (some (hashToken demoEnv (aliceToken 100))) none)
          (some (hashToken demoEnv r)) user.id) := by
  have hmem : alice (some (hashToken demoEnv (aliceToken 100))) ∈
      (demoDb (some (hashToken demoEnv (aliceToken 100))) none).users := by
    simp [demoDb]
  have hver := demo_verify_alice 100 160 (by decide)
  obtain ⟨user, a, r, _, _, _, _, _, hr, href, _⟩ :=
    refresh_live_verified_succeeds demoEnv
      (demoDb (some (hashToken demoEnv (aliceToken 100))) none) (aliceToken 100) 160
      (alice (some (hashToken demoEnv (aliceToken 100)))) _ hmem rfl hver
  exact ⟨hmem, hver, user, a, r, hr, href⟩

/-! ## Rotation and supersession within one clock second -/

/-- C1, at the failing input: alice logs in at second 100 and refreshes within the same
second. The refresh succeeds, returns the very refresh token that was presented and
leaves the stored fingerprint as it was, so the old token replayed at second 101 is
answered 200 with a new pair and not 403. -/
theorem rotation_replay_accepted_same_second :
    login demoEnv (demoDb none none) (some "alice") (some "Abcd1234!") 100 =
      (⟨200, .loginOk "Login successful" (aliceAccessToken 100) (aliceToken 100) aliceProfile⟩,
       demoDb (some (hashToken demoEnv (aliceToken 100))) none) ∧
    refresh demoEnv (demoDb (some (hashToken demoEnv (aliceToken 100))) none)
        (some (aliceToken 100)) 100 =
      (⟨200, .tokens (aliceAccessToken 100) (aliceToken 100)⟩,
       demoDb (some (hashToken demoEnv (aliceToken 100))) none) ∧
    refresh demoEnv (demoDb (some (hashToken demoEnv (aliceToken 100))) none)
        (some (aliceToken 100)) 101 =
      (⟨200, .tokens (aliceAccessToken 101) (aliceToken 101)⟩,
       demoDb (some (hashToken demoEnv (aliceToken 101))) none) :=
  ⟨demo_login_alice none none 100,
   demo_refresh_alice none 100 100 (by decide),
   demo_refresh_alice none 100 101 (by decide)⟩

/-- C6, at the failing input: alice logs in twice within second 100. The second login
returns the same refresh token as the first and stores the same fingerprint, so a
refresh with the token of the first login is answered 200 and not 403. -/
theorem second_login_same_second_keeps_first_token :
    login demoEnv (demoDb none none) (some "alice") (some "Abcd1234!") 100 =
      (⟨200, .loginOk "Login successful" (aliceAccessToken 100) (aliceToken 100) aliceProfile⟩,
       demoDb (some (hashToken demoEnv (aliceToken 100))) none) ∧
    login demoEnv (demoDb (some (hashToken demoEnv (aliceToken 100))) none) (some "alice")
        (some "Abcd1234!") 100 =
      (⟨200, .loginOk "Login successful" (aliceAccessToken 100) (aliceToken 100) aliceProfile⟩,
       demoDb (some (hashToken demoEnv (aliceToken 100))) none) ∧
    refresh demoEnv (demoDb (some (hashToken demoEnv (aliceToken 100))) none)
        (some (aliceToken 100)) 101 =
      (⟨200, .tokens (aliceAccessToken 101) (aliceToken 101)⟩,
       demoDb (some (hashToken demoEnv (aliceToken 101))) none) :=
  ⟨demo_login_alice none none 100,
   demo_login_alice _ none 100,
   demo_refresh_alice none 100 101 (by decide)⟩

/-! ## Preservation of the fingerprint invariant -/

theorem jwtSign_ok {env : Env} {id : Nat} {username : String} {secret : Option String}
    {ttl now : Nat} {r : String} (h : jwtSign env id username secret ttl now = .ok r) :
    ∃ key, secret = some key ∧ key ≠ "" ∧ r = env.jwsEncode ⟨id, username, now, now + ttl⟩ key := by
  unfold jwtSign at h
  cases secret with
  | none => cases h
  | some key =>
    by_cases hk : key = ""
    · simp [hk] at h
    · simp only [hk, if_false] at h
      cases h
      exact ⟨key, rfl, hk, rfl⟩

/-- Every login answered 200 is a login with well-formed credentials of an existing account
under a configured secret. -/
theorem login_ok_conditions {env : Env} {db : Db} {username password : Option String}
    {now : Nat} (h : (login env db username password now).1.status = 200) :
    ∃ (u p key : String) (user : User),
      username = some u ∧ password = some p ∧ u ≠ "" ∧ p ≠ "" ∧
      env.isValidUsername u = true ∧ env.isValidPassword p = true ∧
      selectUserByUsername db u = some user ∧
      env.bcryptCompare p user.password = true ∧
      env.JWT_SECRET = some key ∧ key ≠ "" := by
  unfold login at h
  split at h
  · rename_i u p
    split_ifs at h with h1 h2 h3
    any_goals simp at h
    all_goals
      split at h
      · simp at h
      · rename_i user hfind
        split_ifs at h with h4
        any_goals simp at h
        all_goals
          split at h
          · rename_i hacc hrefr
            obtain ⟨key, hkey, hk, _⟩ := jwtSign_ok hrefr
            refine ⟨u, p, key, user, rfl, rfl, ?_, ?_, ?_, ?_, hfind, ?_, hkey, hk⟩
            · exact fun e => h1 (Or.inl e)
            · exact fun e => h1 (Or.inr e)
            · simpa using h2
            · simpa using h3
            · simpa using h4
          · simp at h
          · simp at h
  · simp at h



theorem eq_of_id_eq {db : Db} (hnd : (db.users.map User.id).Nodup) {u v : User}
    (hu : u ∈ db.users) (hv : v ∈ db.users) (h : u.id = v.id) : u = v :=
  List.inj_on_of_nodup_map hnd hu hv h

/-- A statement that keeps the primary keys and either keeps or clears each fingerprint
preserves the invariant. -/
theorem FingerprintOwned.of_map {env : Env} {issued : List String} {db db1 : Db} (f : User → User)
    (hid : ∀ u, (f u).id = u.id)
    (hfp : ∀ u, (f u).refresh_token = u.refresh_token ∨ (f u).refresh_token = none)
    (husers : db1.users = db.users.map f) (hseq : db1.userSeq = db.userSeq)
    (h : FingerprintOwned env issued db) : FingerprintOwned env issued db1 := by
  have hkeep : ∀ u x, (f u).refresh_token = some x → u.refresh_token = some x := by
    intro u x hx
    rcases hfp u with h1 | h1
    · rw [← h1]
      exact hx
    · rw [h1] at hx
      cases hx
  constructor
  · have hmap : db1.users.map User.id = db.users.map User.id := by
      rw [husers, List.map_map]
      apply List.map_congr_left
      intro u _
      exact hid u
    rw [hmap]
    exact h.ids_nodup
  · intro u1 hu1
    rw [husers, List.mem_map] at hu1
    obtain ⟨u, hu, rfl⟩ := hu1
    rw [hid, hseq]
    exact h.ids_le_seq u hu
  · intro u1 hu1 x hx
    rw [husers, List.mem_map] at hu1
    obtain ⟨u, hu, rfl⟩ := hu1
    rw [hid]
    exact h.owned u hu x (hkeep u x hx)
  · intro u1 hu1 v1 hv1 x hux hvx
    rw [husers, List.mem_map] at hu1 hv1
    obtain ⟨u, hu, rfl⟩ := hu1
    obtain ⟨v, hv, rfl⟩ := hv1
    rw [h.unique u hu v hv x (hkeep u x hux) (hkeep v x hvx)]

/-- A statement that only removes rows of `users` and does not lower the AUTOINCREMENT
counter preserves the invariant. -/
theorem FingerprintOwned.of_sublist {env : Env} {issued : List String} {db db1 : Db}
    (husers : db1.users.Sublist db.users) (hseq : db.userSeq ≤ db1.userSeq)
    (h : FingerprintOwned env issued db) : FingerprintOwned env issued db1 := by
  constructor
  · exact h.ids_nodup.sublist (husers.map User.id)
  · intro u hu
    exact le_trans (h.ids_le_seq u (husers.subset hu)) hseq
  · intro u hu x hx
    exact h.owned u (husers.subset hu) x hx
  · intro u hu v hv x hux hvx
    exact h.unique u (husers.subset hu) v (husers.subset hv) x hux hvx

/-- Inserting a row with the next AUTOINCREMENT key and no fingerprint preserves the
invariant. -/
theorem FingerprintOwned.of_insert {env : Env} {issued : List String} {db db1 : Db} (new : User)
    (hid : new.id = db.userSeq + 1) (hfp : new.refresh_token = none)
    (husers : db1.users = db.users ++ [new]) (hseq : db1.userSeq = db.userSeq + 1)
    (h : FingerprintOwned env issued db) : FingerprintOwned env issued db1 := by
  have hmem : ∀ u, u ∈ db1.users ↔ u ∈ db.users ∨ u = new := by
    intro u
    rw [husers]
    simp
  constructor
  · rw [husers, List.map_append, List.nodup_append]
    refine ⟨h.ids_nodup, by simp, ?_⟩
    intro a ha hb
    simp only [List.map_cons, List.map_nil, List.mem_singleton] at hb
    rw [List.mem_map] at ha
    obtain ⟨u, hu, rfl⟩ := ha
    have := h.ids_le_seq u hu
    omega
  · intro u hu
    rcases (hmem u).1 hu with hu1 | rfl
    · have := h.ids_le_seq u hu1
      omega
    · omega
  · intro u hu x hx
    rcases (hmem u).1 hu with hu1 | rfl
    · exact h.owned u hu1 x hx
    · rw [hfp] at hx
      cases hx
  · intro u hu v hv x hux hvx
    rcases (hmem u).1 hu with hu1 | rfl
    · rcases (hmem v).1 hv with hv1 | rfl
      · exact h.unique u hu1 v hv1 x hux hvx
      · rw [hfp] at hvx
        cases hvx
    · rw [hfp] at hux
      cases hux

/-- A store that satisfies the invariant for some issued tokens satisfies it for more. -/
theorem FingerprintOwned.mono {env : Env} {issued issued1 : List String} {db : Db}
    (hsub : issued ⊆ issued1) (h : FingerprintOwned env issued db) :
    FingerprintOwned env issued1 db := by
  refine ⟨h.ids_nodup, h.ids_le_seq, ?_, h.unique⟩
  intro u hu x hx
  obtain ⟨name, iat, r, hr, hmem, hh⟩ := h.owned u hu x hx
  exact ⟨name, iat, r, hr, hsub hmem, hh⟩

/-- Under the two assumptions, issued tokens with the same digest carry the same
payload. -/
theorem id_eq_of_digest_eq {env : Env} {issued presented : List String}
    (hcf : CollisionFreeOn env issued) (hvs : VerifyReturnsSigned env issued presented)
    {key : String} (hkey : env.JWT_SECRET = some key) {d1 d2 : Decoded}
    (h1 : env.jwsEncode d1 key ∈ issued) (h2 : env.jwsEncode d2 key ∈ issued)
    (h : hashToken env (env.jwsEncode d1 key) = hashToken env (env.jwsEncode d2 key)) :
    d1 = d2 := by
  have e := hcf _ h1 _ h2 h
  have r1 := hvs.1 key d1 hkey h1
  rw [e, hvs.1 key d2 hkey h2] at r1
  exact (Option.some.inj r1).symm

/-- Storing on an account the digest of an issued refresh token signed for the id of that
account preserves the invariant. -/
theorem FingerprintOwned.of_store {env : Env} {issued presented : List String} {db : Db}
    (hcf : CollisionFreeOn env issued) (hvs : VerifyReturnsSigned env issued presented)
    {id : Nat} {username key : String} {now : Nat}
    (hkey : env.JWT_SECRET = some key) (hk : key ≠ "")
    (hmem : env.jwsEncode ⟨id, username, now, now + REFRESH_EXPIRES⟩ key ∈ issued)
    (h : FingerprintOwned env issued db) :
    FingerprintOwned env issued
      (updateRefreshTokenById db
        (some (hashToken env (env.jwsEncode ⟨id, username, now, now + REFRESH_EXPIRES⟩ key))) id) := by
  have hown : IsFingerprintOf env issued id
      (hashToken env (env.jwsEncode ⟨id, username, now, now + REFRESH_EXPIRES⟩ key)) :=
    ⟨username, now, _, by simp [jwtSign, hkey, hk], hmem, rfl⟩
  have hother : ∀ v ∈ db.users,
      v.refresh_token =
        some (hashToken env (env.jwsEncode ⟨id, username, now, now + REFRESH_EXPIRES⟩ key)) →
      v.id = id := by
    intro v hv hfp
    obtain ⟨name, iat, r, hr, hrmem, hh⟩ := h.owned v hv _ hfp
    obtain ⟨key1, hkey1, _, rfl⟩ := jwtSign_ok hr
    rw [hkey] at hkey1
    cases hkey1
    have := id_eq_of_digest_eq hcf hvs hkey hmem hrmem hh
    exact (congrArg Decoded.id this).symm
  constructor
  · have hmap : (updateRefreshTokenById db
        (some (hashToken env (env.jwsEncode ⟨id, username, now, now + REFRESH_EXPIRES⟩ key)))
        id).users.map User.id = db.users.map User.id := by
      simp only [updateRefreshTokenById, List.map_map]
      apply List.map_congr_left
      intro u _
      by_cases hu : u.id = id <;> simp [hu]
    rw [hmap]
    exact h.ids_nodup
  · intro u1 hu1
    obtain ⟨u, hu, rfl⟩ := mem_updateRefreshTokenById.1 hu1
    have := h.ids_le_seq u hu
    by_cases hid : u.id = id <;> simpa [hid, updateRefreshTokenById] using this
  · intro u1 hu1 x hx
    obtain ⟨u, hu, rfl⟩ := mem_updateRefreshTokenById.1 hu1
    by_cases hid : u.id = id
    · simp only [hid, if_true] at hx ⊢
      cases hx
      exact hown
    · simp only [hid, if_false] at hx ⊢
      exact h.owned u hu x hx
  · intro u1 hu1 v1 hv1 x hux hvx
    obtain ⟨u, hu, rfl⟩ := mem_updateRefreshTokenById.1 hu1
    obtain ⟨v, hv, rfl⟩ := mem_updateRefreshTokenById.1 hv1
    by_cases hidu : u.id = id
    · by_cases hidv : v.id = id
      · rw [eq_of_id_eq h.ids_nodup hu hv (hidu.trans hidv.symm)]
      · simp only [hidu, if_true] at hux
        simp only [hidv, if_false] at hvx
        cases hux
        exact absurd (hother v hv hvx) hidv
    · by_cases hidv : v.id = id
      · simp only [hidv, if_true] at hvx
        simp only [hidu, if_false] at hux
        cases hvx
        exact absurd (hother u hu hux) hidu
      · simp only [hidu, hidv, if_false] at hux hvx ⊢
        exact h.unique u hu v hv x hux hvx

theorem clearById_preserves {env : Env} {issued : List String} {db : Db} (id : Nat) (h : FingerprintOwned env issued db) :
    FingerprintOwned env issued (updateRefreshTokenById db none id) :=
  FingerprintOwned.of_map (fun u => if u.id = id then { u with refresh_token := none } else u)
    (fun u => by by_cases hu : u.id = id <;> simp [hu])
    (fun u => by by_cases hu : u.id = id <;> simp [hu]) rfl rfl h

theorem clearByValue_preserves {env : Env} {issued : List String} {db : Db} (hashed : String)
    (h : FingerprintOwned env issued db) :
    FingerprintOwned env issued (clearRefreshTokenByValue db hashed).2 :=
  FingerprintOwned.of_map
    (fun u => if u.refresh_token = some hashed then { u with refresh_token := none } else u)
    (fun u => by by_cases hu : u.refresh_token = some hashed <;> simp [hu])
    (fun u => by by_cases hu : u.refresh_token = some hashed <;> simp [hu]) rfl rfl h

theorem updatePassword_preserves {env : Env} {issued : List String} {db : Db} (hashed : String) (id : Nat)
    (h : FingerprintOwned env issued db) :
    FingerprintOwned env issued (updatePasswordById db hashed id) :=
  FingerprintOwned.of_map (fun u => if u.id = id then { u with password := hashed } else u)
    (fun u => by by_cases hu : u.id = id <;> simp [hu])
    (fun u => by by_cases hu : u.id = id <;> simp [hu]) rfl rfl h

theorem insertUser_preserves {env : Env} {issued : List String} {db db1 : Db} {first_name : String}
    {middle_name : Option String} {last_name username email hashed : String}
    (hins : insertUser db first_name middle_name last_name username email hashed = .ok db1)
    (h : FingerprintOwned env issued db) : FingerprintOwned env issued db1 := by
  unfold insertUser at hins
  split_ifs at hins
  cases hins
  exact FingerprintOwned.of_insert _ rfl rfl rfl rfl h

theorem signup_preserves {env : Env} {issued : List String} {db : Db}
    (first_name middle_name last_name username email password : Option String)
    (salt : Nat) (fault : Option String) (h : FingerprintOwned env issued db) :
    FingerprintOwned env issued
      (signup env db first_name middle_name last_name username email password salt fault).2 := by
  unfold signup
  split
  · split_ifs
    any_goals exact h
    cases fault with
    | some err =>
      dsimp only
      split_ifs <;> exact h
    | none =>
      dsimp only
      split
      · rename_i db1 hins
        exact insertUser_preserves hins h
      · split_ifs <;> exact h
  · exact h

theorem login_ok_or_unchanged (env : Env) (db : Db) (username password : Option String)
    (now : Nat) :
    (login env db username password now).1.status = 200 ∨
      (login env db username password now).2 = db := by
  unfold login
  split
  · split_ifs
    any_goals (right; rfl)
    all_goals
      split
      · right
        rfl
      · split_ifs
        any_goals (right; rfl)
        all_goals
          split
          · left
            rfl
          · right
            rfl
          · right
            rfl
  · right
    rfl

/-- A login that is not answered 200 leaves the store as it was. -/
theorem login_unchanged {env : Env} {db : Db} {username password : Option String} {now : Nat}
    (h : (login env db username password now).1.status ≠ 200) :
    (login env db username password now).2 = db :=
  (login_ok_or_unchanged env db username password now).resolve_left h

theorem login_preserves {env : Env} {issued presented : List String} {db : Db}
    (hcf : CollisionFreeOn env issued) (hvs : VerifyReturnsSigned env issued presented)
    (username password : Option String) (now : Nat)
    (hI : ∀ x ∈ issuedTokens (login env db username password now).1, x ∈ issued)
    (h : FingerprintOwned env issued db) :
    FingerprintOwned env issued (login env db username password now).2 := by
  by_cases hs : (login env db username password now).1.status = 200
  · obtain ⟨u, p, key, user, rfl, rfl, hu, hp, hvu, hvp, hfind, hpw, hkey, hk⟩ :=
      login_ok_conditions hs
    have heq := login_of_valid now hu hp hvu hvp hfind hpw hkey hk
    rw [heq] at hI ⊢
    exact FingerprintOwned.of_store hcf hvs hkey hk (hI _ (by simp [issuedTokens])) h
  · rw [login_unchanged hs]
    exact h

theorem logout_preserves {env : Env} {issued : List String} {db : Db} (refreshToken : Option String)
    (h : FingerprintOwned env issued db) :
    FingerprintOwned env issued (logout env db refreshToken).2 := by
  unfold logout
  split_ifs
  · exact h
  · split
    · exact h
    · dsimp only
      split_ifs <;> exact clearByValue_preserves _ h

theorem changePassword_preserves {env : Env} {issued : List String} {db : Db} (userId : Nat)
    (oldPassword newPassword : Option String) (salt : Nat) (h : FingerprintOwned env issued db) :
    FingerprintOwned env issued (changePassword env db userId oldPassword newPassword salt).2 := by
  unfold changePassword
  split
  · split_ifs
    any_goals exact h
    split
    · exact h
    · split_ifs
      · exact h
      · exact clearById_preserves _ (updatePassword_preserves _ _ h)
  · exact h

theorem deleteUserById_sublist {db db1 : Db} {userId changes : Nat}
    (h : deleteUserById db userId = .ok (changes, db1)) :
    db1.users.Sublist db.users ∧ db1.userSeq = db.userSeq := by
  unfold deleteUserById at h
  split_ifs at h
  cases h
  exact ⟨List.filter_sublist _, rfl⟩

theorem deleteTransaction_sublist {db db1 : Db} {userId : Nat} {faults : Faults}
    (h : deleteTransaction db userId faults = .ok db1) :
    db1.users.Sublist db.users ∧ db1.userSeq = db.userSeq := by
  unfold deleteTransaction at h
  split at h
  · cases h
  · dsimp only at h
    split at h
    · cases h
    · split at h
      · cases h
      · rename_i hdel
        split_ifs at h
        split at h
        · cases h
        · cases h
          have h2 := deleteUserById_sublist hdel
          exact h2

theorem deleteAccountCatch_sublist (db : Db) (userId : Nat) (faults : Faults)
    (message : String) :
    (deleteAccountCatch db userId faults message).2.users.Sublist db.users ∧
      (deleteAccountCatch db userId faults message).2.userSeq = db.userSeq := by
  unfold deleteAccountCatch
  split_ifs
  · dsimp only
    split
    · exact ⟨List.Sublist.refl _, rfl⟩
    · split
      · exact ⟨List.Sublist.refl _, rfl⟩
      · split
        · exact ⟨List.Sublist.refl _, rfl⟩
        · rename_i hdel
          have h2 := deleteUserById_sublist hdel
          exact h2
  · exact ⟨List.Sublist.refl _, rfl⟩

theorem deleteAccount_preserves {env : Env} {issued : List String} {db : Db} (userId : Nat) (faults : Faults)
    (h : FingerprintOwned env issued db) :
    FingerprintOwned env issued (deleteAccount db userId faults).2 := by
  have key : (deleteAccount db userId faults).2.users.Sublist db.users ∧
      (deleteAccount db userId faults).2.userSeq = db.userSeq := by
    unfold deleteAccount
    split
    · exact deleteAccountCatch_sublist _ _ _ _
    · split
      · exact ⟨List.Sublist.refl _, rfl⟩
      · split
        · rename_i htx
          exact deleteTransaction_sublist htx
        · exact deleteAccountCatch_sublist _ _ _ _
  exact FingerprintOwned.of_sublist key.1 (le_of_eq key.2.symm) h

/-- On a store that satisfies the invariant, the claims of an issued token that resolves to
an account and verifies carry the id of that account. -/
theorem verified_id_eq {env : Env} {issued presented : List String} {db : Db}
    (hcf : CollisionFreeOn env issued) (hvs : VerifyReturnsSigned env issued presented)
    (h : FingerprintOwned env issued db) {t : String} {now : Nat}
    {user : User} {decoded : Decoded} (ht : t ∈ issued)
    (hsel : selectUserByRefreshToken db (hashToken env t) = some user)
    (hver : jwtVerify env t env.JWT_SECRET now = .ok decoded) : decoded.id = user.id := by
  obtain ⟨hmem, hfp⟩ := selectUserByRefreshToken_some hsel
  obtain ⟨name, iat, r, hr, hrmem, hh⟩ := h.owned user hmem _ hfp
  obtain ⟨key, hkey, hk, rfl⟩ := jwtSign_ok hr
  obtain ⟨_, key1, hkey1, _, hdec, _⟩ := (jwtVerify_ok_iff env t env.JWT_SECRET now decoded).1 hver
  have hk1 : key1 = key := Option.some.inj (hkey1.symm.trans hkey)
  rw [hk1, hcf t ht _ hrmem hh, hvs.1 key _ hkey hrmem] at hdec
  exact (congrArg Decoded.id (Option.some.inj hdec)).symm

/-- A presented token that verifies is, under the second assumption, an issued token. -/
theorem issued_of_verified {env : Env} {issued presented : List String}
    (hvs : VerifyReturnsSigned env issued presented) {t : String} {now : Nat}
    {decoded : Decoded} (ht : t ∈ presented)
    (hver : jwtVerify env t env.JWT_SECRET now = .ok decoded) : t ∈ issued := by
  obtain ⟨_, key, hkey, _, hdec, _⟩ := (jwtVerify_ok_iff env t env.JWT_SECRET now decoded).1 hver
  exact hvs.2 t ht key decoded hkey hdec

theorem refresh_preserves {env : Env} {issued presented : List String} {db : Db}
    (hcf : CollisionFreeOn env issued) (hvs : VerifyReturnsSigned env issued presented)
    (token : Option String) (now : Nat)
    (hP : ∀ t, token = some t → t ∈ presented)
    (hI : ∀ x ∈ issuedTokens (refresh env db token now).1, x ∈ issued)
    (h : FingerprintOwned env issued db) :
    FingerprintOwned env issued (refresh env db token now).2 := by
  cases token with
  | none =>
    have h0 : refresh env db none now = (⟨400, .error "Refresh token required"⟩, db) := by
      simp [refresh, truthy]
    rw [h0]
    exact h
  | some t =>
    by_cases ht : t = ""
    · have h0 : refresh env db (some t) now = (⟨400, .error "Refresh token required"⟩, db) := by
        simp [refresh, truthy, ht]
      rw [h0]
      exact h
    · cases hsel : selectUserByRefreshToken db (hashToken env t) with
      | none =>
        have h0 : refresh env db (some t) now = (⟨403, .error "Invalid refresh token"⟩, db) := by
          simp [refresh, truthy, ht, hsel]
        rw [h0]
        exact h
      | some user =>
        cases hver : jwtVerify env t env.JWT_SECRET now with
        | error err =>
          rw [refresh_of_failed ht hsel hver]
          exact clearById_preserves _ h
        | ok decoded =>
          obtain ⟨key, hkey, hk, href⟩ := refresh_of_verified hsel hver
          have htI := issued_of_verified hvs (hP t rfl) hver
          rw [href] at hI ⊢
          rw [verified_id_eq hcf hvs h htI hsel hver] at hI ⊢
          exact FingerprintOwned.of_store hcf hvs hkey hk (hI _ (by simp [issuedTokens])) h

theorem emptyDb_fingerprintOwned (env : Env) (issued : List String) :
    FingerprintOwned env issued emptyDb := by
  constructor <;> simp [emptyDb]

/-- Every run ends in a store that satisfies the invariant for any tokens that contain the
issued ones, are collision-free, and for which verification returns the signed claims. -/
theorem reachable_fingerprintOwned {env : Env} {all shown : List String}
    (hcf : CollisionFreeOn env all) (hvs : VerifyReturnsSigned env all shown)
    {issued presented : List String} {db : Db} (hr : Reachable env issued presented db)
    (hI : issued ⊆ all) (hP : presented ⊆ shown) : FingerprintOwned env all db := by
  induction hr with
  | init => exact emptyDb_fingerprintOwned env all
  | signup _ first_name middle_name last_name username email password salt fault ih =>
    exact signup_preserves first_name middle_name last_name username email password salt fault
      (ih hI hP)
  | login _ username password now ih =>
    exact login_preserves hcf hvs username password now
      (fun x hx => hI (List.mem_append_left _ hx))
      (ih (fun x hx => hI (List.mem_append_right _ hx)) hP)
  | refresh _ token now ih =>
    exact refresh_preserves hcf hvs token now
      (fun t ht => hP (List.mem_append_left _ (by simp [ht])))
      (fun x hx => hI (List.mem_append_left _ hx))
      (ih (fun x hx => hI (List.mem_append_right _ hx))
        (fun x hx => hP (List.mem_append_right _ hx)))
  | logout _ refreshToken ih => exact logout_preserves refreshToken (ih hI hP)
  | changePassword _ userId oldPassword newPassword salt ih =>
    exact changePassword_preserves userId oldPassword newPassword salt (ih hI hP)
  | deleteAccount _ userId faults ih => exact deleteAccount_preserves userId faults (ih hI hP)

/-! ## The fingerprint-ownership invariant -/

/-- C10: assuming the digest is collision-free on the issued tokens and verification returns
the claims that were signed, the store at the end of every run from the empty store by
signup, login, refresh, logout, changePassword and deleteAccount satisfies the fingerprint
invariant (distinct primary keys, every stored fingerprint is the digest of an issued
refresh token signed for the id of its account, no fingerprint is stored on two
accounts), and in every refresh that resolves to an account and verifies, the id in the
decoded claims is the id of that account, so both minted tokens are signed for the account
whose fingerprint is replaced. -/
theorem fingerprint_ownership (env : Env) (issued presented : List String) (db : Db)
    (hcf : CollisionFreeOn env issued) (hvs : VerifyReturnsSigned env issued presented)
    (hr : Reachable env issued presented db) :
    FingerprintOwned env issued db ∧
    ∀ (t : String) (now : Nat) (user : User) (decoded : Decoded),
      (∀ (key : String) (d : Decoded), env.JWT_SECRET = some key →
        env.jwsDecode t key = some d → t ∈ issued) →
      selectUserByRefreshToken db (hashToken env t) = some user →
      jwtVerify env t env.JWT_SECRET now = .ok decoded →
      decoded.id = user.id ∧
      ∃ accessToken r : String,
        jwtSign env user.id decoded.username env.JWT_SECRET ACCESS_EXPIRES now =
          .ok accessToken ∧
        jwtSign env user.id decoded.username env.JWT_SECRET REFRESH_EXPIRES now = .ok r ∧
        refresh env db (some t) now =
          (⟨200, .tokens accessToken r⟩,
           updateRefreshTokenById db (some (hashToken env r)) user.id) := by
  have hinv := reachable_fingerprintOwned hcf hvs hr (List.Subset.refl _) (List.Subset.refl _)
  refine ⟨hinv, ?_⟩
  intro t now user decoded hsigned hsel hver
  obtain ⟨_, key0, hkey0, _, hdec, _⟩ :=
    (jwtVerify_ok_iff env t env.JWT_SECRET now decoded).1 hver
  have hid := verified_id_eq hcf hvs hinv (hsigned key0 decoded hkey0 hdec) hsel hver
  obtain ⟨key, hkey, hk, href⟩ := refresh_of_verified hsel hver
  rw [hid] at href
  refine ⟨hid, _, _, ?_, ?_, href⟩
  · simp [jwtSign, hkey, hk]
  · simp [jwtSign, hkey, hk]

theorem aliceDb_select (h : String) :
    selectUserByRefreshToken (aliceDb (some h)) h = some (alice (some h)) := by
  simp [selectUserByRefreshToken, aliceDb, alice]

theorem aliceDb_update (fa value : Option String) :
    updateRefreshTokenById (aliceDb fa) value 1 = aliceDb value := by
  simp [updateRefreshTokenById, aliceDb, alice]

theorem aliceDb_signup :
    signup demoEnv emptyDb (some "Alice") none (some "Doe") (some "alice")
        (some "alice@example.com") (some "Abcd1234!") 0 none =
      (⟨201, .message "User created successfully"⟩, aliceDb none) := by
  decide

theorem aliceDb_login (fa : Option String) (now : Nat) :
    login demoEnv (aliceDb fa) (some "alice") (some "Abcd1234!") now =
      (⟨200, .loginOk "Login successful" (aliceAccessToken now) (aliceToken now) aliceProfile⟩,
       aliceDb (some (hashToken demoEnv (aliceToken now)))) := by
  have hfind : selectUserByUsername (aliceDb fa) "alice" = some (alice fa) := by
    simp [selectUserByUsername, aliceDb, alice]
  have hpw : demoEnv.bcryptCompare "Abcd1234!" (alice fa).password = true := by
    simp [demoEnv, alice]
  have h := @login_of_valid demoEnv (aliceDb fa) "alice" "Abcd1234!" "k" (alice fa) now
    (by decide) (by decide) (by decide) (by decide) hfind hpw rfl (by decide)
  rw [h]
  exact Prod.ext rfl (aliceDb_update fa _)

theorem aliceDb_refresh (iat now : Nat) (h : now < iat + REFRESH_EXPIRES) :
    refresh demoEnv (aliceDb (some (hashToken demoEnv (aliceToken iat))))
        (some (aliceToken iat)) now =
      (⟨200, .tokens (aliceAccessToken now) (aliceToken now)⟩,
       aliceDb (some (hashToken demoEnv (aliceToken now)))) := by
  obtain ⟨key, hkey, _, href⟩ :=
    refresh_of_verified (aliceDb_select _) (demo_verify_alice iat now h)
  cases (Option.some.inj hkey : "k" = key)
  rw [href]
  exact Prod.ext rfl (aliceDb_update _ _)

theorem demoReached_reachable : Reachable demoEnv demoIssued demoPresented demoReached := by
  have h1 : (signup demoEnv emptyDb (some "Alice") none (some "Doe") (some "alice")
      (some "alice@example.com") (some "Abcd1234!") 0 none).2 = aliceDb none :=
    congrArg Prod.snd aliceDb_signup
  have h2 : (login demoEnv (aliceDb none) (some "alice") (some "Abcd1234!") 100).2 =
      aliceDb (some (hashToken demoEnv (aliceToken 100))) :=
    congrArg Prod.snd (aliceDb_login none 100)
  have h3 : (refresh demoEnv (aliceDb (some (hashToken demoEnv (aliceToken 100))))
      (some (aliceToken 100)) 160).2 = demoReached :=
    congrArg Prod.snd (aliceDb_refresh 100 160 (by decide))
  have i2 : issuedTokens (login demoEnv (aliceDb none) (some "alice") (some "Abcd1234!") 100).1 =
      [aliceAccessToken 100, aliceToken 100] := by
    rw [aliceDb_login]
    rfl
  have i3 : issuedTokens (refresh demoEnv (aliceDb (some (hashToken demoEnv (aliceToken 100))))
      (some (aliceToken 100)) 160).1 = [aliceAccessToken 160, aliceToken 160] := by
    rw [aliceDb_refresh 100 160 (by decide)]
    rfl
  have h0 := Reachable.refresh
    (Reachable.login
      (Reachable.signup (Reachable.init : Reachable demoEnv [] [] emptyDb) (some "Alice") none
        (some "Doe") (some "alice") (some "alice@example.com") (some "Abcd1234!") 0 none)
      (some "alice") (some "Abcd1234!") 100)
    (some (aliceToken 100)) 160
  rw [h1, i2, h2, i3, h3] at h0
  exact h0

theorem demoIssued_collisionFree : CollisionFreeOn demoEnv demoIssued :=
  fun a _ b _ h => demoEnv_sha256hex_injective a b h

theorem demoIssued_verifyReturnsSigned :
    VerifyReturnsSigned demoEnv demoIssued demoPresented := by
  refine ⟨fun key d _ _ => demoDecode_demoEncode d key, ?_⟩
  intro t ht key d _ _
  simp only [demoPresented, List.mem_singleton] at ht
  rw [ht]
  simp [demoIssued]

/-- Instance of `fingerprint_ownership`: alice signs up, logs in at second 100 and
refreshes at second 160; the store holds the digest of her second refresh token and
satisfies the invariant. -/
theorem fingerprint_ownership_witness :
    CollisionFreeOn demoEnv demoIssued ∧
    VerifyReturnsSigned demoEnv demoIssued demoPresented ∧
    Reachable demoEnv demoIssued demoPresented demoReached ∧
    FingerprintOwned demoEnv demoIssued demoReached :=
  ⟨demoIssued_collisionFree, demoIssued_verifyReturnsSigned, demoReached_reachable,
   (fingerprint_ownership demoEnv demoIssued demoPresented demoReached
     demoIssued_collisionFree demoIssued_verifyReturnsSigned demoReached_reachable).1⟩

/-- On a store that satisfies the invariant, a token whose digest is stored on an account
is an issued token, hence not empty, and is stored on that account only, as long as the
digest is collision-free on the issued tokens together with the presented one and no
issued token is the empty string. -/
theorem live_token_of_reachable {env : Env} {issued presented : List String} {db : Db}
    {t : String} (hcf : CollisionFreeOn env (t :: issued))
    (hvs : VerifyReturnsSigned env issued presented)
    (hr : Reachable env issued presented db) (hne : ∀ r ∈ issued, r ≠ "")
    {u : User} (hu : u ∈ db.users) (hlive : u.refresh_token = some (hashToken env t)) :
    t ∈ issued ∧ t ≠ "" ∧
      ∀ v ∈ db.users, v.refresh_token = some (hashToken env t) → v = u := by
  have hcf1 : CollisionFreeOn env issued :=
    fun a ha b hb h => hcf a (List.mem_cons_of_mem _ ha) b (List.mem_cons_of_mem _ hb) h
  have hinv := reachable_fingerprintOwned hcf1 hvs hr (List.Subset.refl _) (List.Subset.refl _)
  obtain ⟨name, iat, r, _, hrmem, hh⟩ := hinv.owned u hu _ hlive
  have ht : t = r := hcf t (List.mem_cons_self _ _) r (List.mem_cons_of_mem _ hrmem) hh
  refine ⟨ht ▸ hrmem, ht ▸ hne r hrmem, ?_⟩
  intro v hv hvfp
  exact hinv.unique v hv u hu _ hvfp hlive

/-! ## Refresh with a token that matches but does not verify -/

/-- C5: when a token `t` is live for an account `u` but fails verification, refresh answers
403 "Invalid or expired refresh token" with no tokens, sets the fingerprint of the account
to null, and changes no other account and no other table.
On every store this holds for a non-empty token and the account the lookup resolves `t`
to (the handler stops an empty token before the lookup; the lookup takes the first
account that holds the fingerprint). On the store at the end of a run, where every stored
fingerprint is the digest of an issued token, it holds for every token and for `u`
itself, as long as the digest is collision-free on the issued tokens together with the
presented one, verification returns the claims that were signed, and no issued token is
the empty string. -/
theorem refresh_live_unverified_clears (env : Env) (db : Db) (t : String) (now : Nat)
    (u : User) (err : String)
    (hu : u ∈ db.users) (hlive : u.refresh_token = some (hashToken env t))
    (hver : jwtVerify env t env.JWT_SECRET now = .error err) :
    (t ≠ "" →
      ∃ user : User,
        selectUserByRefreshToken db (hashToken env t) = some user ∧
        user ∈ db.users ∧ user.refresh_token = some (hashToken env t) ∧
        ((∀ v ∈ db.users, v.refresh_token = some (hashToken env t) → v = u) → user = u) ∧
        refresh env db (some t) now =
          (⟨403, .error "Invalid or expired refresh token"⟩,
           updateRefreshTokenById db none user.id) ∧
        (∀ v ∈ (refresh env db (some t) now).2.users,
          v.id = user.id → v.refresh_token = none) ∧
        { user with refresh_token := none } ∈ (refresh env db (some t) now).2.users ∧
        (∀ v : User, v.id ≠ user.id →
          (v ∈ (refresh env db (some t) now).2.users ↔ v ∈ db.users)) ∧
        (refresh env db (some t) now).2.todos = db.todos) ∧
    (∀ issued presented : List String,
      Reachable env issued presented db → CollisionFreeOn env (t :: issued) →
      VerifyReturnsSigned env issued presented → (∀ r ∈ issued, r ≠ "") →
      refresh env db (some t) now =
        (⟨403, .error "Invalid or expired refresh token"⟩,
         updateRefreshTokenById db none u.id) ∧
      (∀ v ∈ (refresh env db (some t) now).2.users, v.id = u.id → v.refresh_token = none) ∧
      { u with refresh_token := none } ∈ (refresh env db (some t) now).2.users ∧
      (∀ v : User, v.id ≠ u.id →
        (v ∈ (refresh env db (some t) now).2.users ↔ v ∈ db.users)) ∧
      (refresh env db (some t) now).2.todos = db.todos) := by
  have hall : ∀ user : User, t ≠ "" →
      selectUserByRefreshToken db (hashToken env t) = some user →
      refresh env db (some t) now =
        (⟨403, .error "Invalid or expired refresh token"⟩,
         updateRefreshTokenById db none user.id) ∧
      (∀ v ∈ (refresh env db (some t) now).2.users,
        v.id = user.id → v.refresh_token = none) ∧
      { user with refresh_token := none } ∈ (refresh env db (some t) now).2.users ∧
      (∀ v : User, v.id ≠ user.id →
        (v ∈ (refresh env db (some t) now).2.users ↔ v ∈ db.users)) ∧
      (refresh env db (some t) now).2.todos = db.todos := by
    intro user ht hsel
    obtain ⟨hmem, _⟩ := selectUserByRefreshToken_some hsel
    have href := refresh_of_failed ht hsel hver
    refine ⟨href, ?_, ?_, ?_, ?_⟩
    · intro v hv hid
      rw [href] at hv
      exact updateRefreshTokenById_same hv hid
    · rw [href]
      exact updateRefreshTokenById_row hmem
    · intro v hid
      rw [href]
      exact updateRefreshTokenById_other hid
    · rw [href]
      rfl
  obtain ⟨user, hsel⟩ := selectUserByRefreshToken_isSome hu hlive
  obtain ⟨hmem, hfp⟩ := selectUserByRefreshToken_some hsel
  constructor
  · intro ht
    exact ⟨user, hsel, hmem, hfp, fun huniq => huniq user hmem hfp, hall user ht hsel⟩
  · intro issued presented hr hcf hvs hne
    obtain ⟨_, ht, huniq⟩ := live_token_of_reachable hcf hvs hr hne hu hlive
    have huser : user = u := huniq user hmem hfp
    rw [huser] at hsel
    exact hall u ht hsel

/-- Instance of `refresh_live_unverified_clears`: in the store after alice has signed up,
logged in and refreshed, she presents her live token after it has expired; the refresh is
answered 403 and her fingerprint is cleared. -/
theorem refresh_live_unverified_clears_witness :
    alice (some (hashToken demoEnv (aliceToken 160))) ∈ demoReached.users ∧
    jwtVerify demoEnv (aliceToken 160) demoEnv.JWT_SECRET (160 + REFRESH_EXPIRES) =
      .error "jwt expired" ∧
    Reachable demoEnv demoIssued demoPresented demoReached ∧
    CollisionFreeOn demoEnv (aliceToken 160 :: demoIssued) ∧
    VerifyReturnsSigned demoEnv demoIssued demoPresented ∧
    (∀ r ∈ demoIssued, r ≠ "") ∧
    refresh demoEnv demoReached (some (aliceToken 160)) (160 + REFRESH_EXPIRES) =
      (⟨403, .error "Invalid or expired refresh token"⟩, aliceDb none) := by
  have hmem : alice (some (hashToken demoEnv (aliceToken 160))) ∈ demoReached.users := by
    simp [demoReached, aliceDb]
  have hver := demo_verify_alice_expired 160 (160 + REFRESH_EXPIRES) (le_refl _)
  have hcf : CollisionFreeOn demoEnv (aliceToken 160 :: demoIssued) :=
    fun a _ b _ h => demoEnv_sha256hex_injective a b h
  have hne : ∀ r ∈ demoIssued, r ≠ "" := by
    intro r hr
    simp only [demoIssued, List.mem_cons, List.mem_singleton, List.not_mem_nil, or_false] at hr
    rcases hr with rfl | rfl | rfl | rfl <;> exact demoEncode_ne_empty _ _
  have h := (refresh_live_unverified_clears demoEnv demoReached (aliceToken 160)
    (160 + REFRESH_EXPIRES) (alice (some (hashToken demoEnv (aliceToken 160)))) _
    hmem rfl hver).2 demoIssued demoPresented demoReached_reachable hcf
    demoIssued_verifyReturnsSigned hne
  refine ⟨hmem, hver, demoReached_reachable, hcf, demoIssued_verifyReturnsSigned, hne, ?_⟩
  rw [h.1]
  exact Prod.ext rfl (aliceDb_update _ none)

/-! ## Account deletion -/

theorem deleteTransaction_ok {db db1 : Db} {userId : Nat} {faults : Faults}
    (h : deleteTransaction db userId faults = .ok db1) :
    db1 = { db with
            users := db.users.filter (fun u => !decide (u.id = userId))
            todos := db.todos.filter (fun t => !decide (t.user_id = some userId)) } := by
  unfold deleteTransaction at h
  split at h
  · cases h
  · dsimp only at h
    split at h
    · cases h
    · split at h
      · cases h
      · rename_i hdel
        split_ifs at h
        split at h
        · cases h
        · cases h
          unfold deleteUserById at hdel
          split_ifs at hdel
          cases hdel
          rfl

theorem no_todos_after_delete (db : Db) (userId : Nat) :
    (deleteTodosByUser db userId).todos.any (fun t => decide (t.user_id = some userId)) =
      false := by
  rw [List.any_eq_false]
  intro t ht
  simp only [deleteTodosByUser, List.mem_filter] at ht
  simpa using ht.2

/-- Inside the transaction the account is never referenced when it is deleted, so an error
of the transaction is an injected failure or the error the transaction throws itself. -/
theorem deleteTransaction_error {db : Db} {userId : Nat} {faults : Faults} {err : String}
    (h : deleteTransaction db userId faults = .error err) :
    faults.txDeleteTodos = some err ∨ faults.txDeleteUser = some err ∨
      faults.txCommit = some err ∨ err = "Failed to delete user account" := by
  unfold deleteTransaction at h
  split at h
  · rename_i e he
    cases h
    exact Or.inl he
  · dsimp only at h
    split at h
    · rename_i e he
      cases h
      exact Or.inr (Or.inl he)
    · split at h
      · rename_i e hdel
        unfold deleteUserById at hdel
        rw [no_todos_after_delete] at hdel
        simp at hdel
      · split_ifs at h
        · cases h
          exact Or.inr (Or.inr (Or.inr rfl))
        · split at h
          · rename_i e he
            cases h
            exact Or.inr (Or.inr (Or.inl he))
          · cases h

/-- C8: account deletion is all-or-nothing. For every store, every authenticated id and
every outcome of the storage statements that the schema allows, `deleteAccount` either
answers 200 and the account row (with its fingerprint) and its todos are gone while
everything else is as before, or it answers an error and the store is exactly as it was
before the call. -/
theorem deleteAccount_all_or_nothing (db : Db) (userId : Nat) (faults : Faults)
    (hfaults : SchemaPossible faults) :
    ((deleteAccount db userId faults).1 = ⟨200, .message "Account deleted successfully"⟩ ∧
      (deleteAccount db userId faults).2 =
        { db with
          users := db.users.filter (fun u => !decide (u.id = userId))
          todos := db.todos.filter (fun t => !decide (t.user_id = some userId)) } ∧
      (∀ u ∈ (deleteAccount db userId faults).2.users, u.id ≠ userId) ∧
      (∀ t ∈ (deleteAccount db userId faults).2.todos, t.user_id ≠ some userId)) ∨
    ((deleteAccount db userId faults).1.status ≠ 200 ∧
      (deleteAccount db userId faults).2 = db) := by
  obtain ⟨h1, h2, h3, h4⟩ := hfaults
  have htx : ∀ err, deleteTransaction db userId faults = .error err →
      includes err "FOREIGN KEY" = false := by
    intro err herr
    rcases deleteTransaction_error herr with h | h | h | h
    · exact h2 err h
    · exact h3 err h
    · exact h4 err h
    · rw [h]
      decide
  unfold deleteAccount
  split
  · rename_i err herr
    right
    simp [deleteAccountCatch, h1 err herr]
  · split
    · right
      simp
    · split
      · rename_i db1 hok
        left
        have hdb := deleteTransaction_ok hok
        refine ⟨rfl, hdb, ?_, ?_⟩
        · intro u hu
          have hu1 : u ∈ db1.users := hu
          rw [hdb] at hu1
          simpa using (List.mem_filter.1 hu1).2
        · intro t ht
          have ht1 : t ∈ db1.todos := ht
          rw [hdb] at ht1
          simpa using (List.mem_filter.1 ht1).2
      · rename_i err herr
        right
        simp [deleteAccountCatch, htx err herr]

/-- Instance of `deleteAccount_all_or_nothing`: when the delete of the account row fails on
the disk the handler answers 500 and the store is as before; when nothing fails alice and
her todo are gone. -/
theorem deleteAccount_all_or_nothing_witness :
    SchemaPossible diskFaults ∧
    (deleteAccount (demoDb (some "#live") none) 1 diskFaults).1 =
      ⟨500, .errorDetails "Failed to delete account" "disk I/O error"⟩ ∧
    (deleteAccount (demoDb (some "#live") none) 1 diskFaults).2 = demoDb (some "#live") none ∧
    deleteAccount (demoDb (some "#live") none) 1 noFaults =
      (⟨200, .message "Account deleted successfully"⟩,
       { users := [bob none], todos := [], userSeq := 2, foreign_keys := true }) := by
  have hdisk : SchemaPossible diskFaults := by
    refine ⟨?_, ?_, ?_, ?_⟩ <;> intro err h <;> simp [diskFaults, noFaults] at h
    rw [← h]
    decide
  have hresp : (deleteAccount (demoDb (some "#live") none) 1 diskFaults).1 =
      ⟨500, .errorDetails "Failed to delete account" "disk I/O error"⟩ := by decide
  rcases deleteAccount_all_or_nothing (demoDb (some "#live") none) 1 diskFaults hdisk with
    h | h
  · rw [hresp] at h
    exact absurd h.1 (by decide)
  · exact ⟨hdisk, hresp, h.2, by decide⟩

/-! ## A missing signing secret -/

/-- C9 as stated fails: with `JWT_SECRET` unset, a login with valid credentials is
answered per request with the configuration error, and a refresh with a live token
clears the fingerprint of the account. -/
theorem missing_secret_counterexample :
    login demoEnvNoSecret (demoDb none none) (some "alice") (some "Abcd1234!") 100 =
      (⟨500, .error "Server configuration error: JWT_SECRET not found"⟩, demoDb none none) ∧
    refresh demoEnvNoSecret (demoDb (some "#live") none) (some "live") 100 =
      (⟨403, .error "Invalid or expired refresh token"⟩, demoDb none none) := by
  constructor
  · decide
  · have h := @refresh_of_failed demoEnvNoSecret (demoDb (some "#live") none) "live" 100
      (alice (some "#live")) "secret or public key must be provided" (by decide) (by decide)
      (by simp [jwtVerify, demoEnvNoSecret])
    rw [h]
    decide

/-- C9, amended: with the signing secret absent, a login with valid credentials is
answered per request with 500 "Server configuration error: JWT_SECRET not found", no login
changes the store, a refresh is answered 400 or 403 and never with a configuration error,
and logout does not depend on the secret. -/
theorem missing_secret_per_request (env : Env) (db : Db)
    (hsecret : truthy env.JWT_SECRET = false) :
    (∀ (username password : String) (user : User) (now : Nat),
        username ≠ "" → password ≠ "" →
        env.isValidUsername username = true → env.isValidPassword password = true →
        selectUserByUsername db username = some user →
        env.bcryptCompare password user.password = true →
        login env db (some username) (some password) now =
          (⟨500, .error "Server configuration error: JWT_SECRET not found"⟩, db)) ∧
    (∀ (username password : Option String) (now : Nat),
        (login env db username password now).2 = db) ∧
    (∀ (token : Option String) (now : Nat),
        (refresh env db token now).1 = ⟨400, .error "Refresh token required"⟩ ∨
        (refresh env db token now).1 = ⟨403, .error "Invalid refresh token"⟩ ∨
        (refresh env db token now).1 = ⟨403, .error "Invalid or expired refresh token"⟩) ∧
    (∀ (refreshToken secret : Option String),
        logout { env with JWT_SECRET := secret } db refreshToken =
          logout env db refreshToken) := by
  refine ⟨?_, ?_, ?_, ?_⟩
  · intro username password user now hu hp hvu hvp hfind hpw
    simp [login, hu, hp, hvu, hvp, hfind, hpw, hsecret]
  · intro username password now
    unfold login
    split
    · split_ifs
      any_goals rfl
      all_goals
        split
        · rfl
        · split_ifs
          any_goals rfl
          all_goals simp_all
    · rfl
  · intro token now
    cases token with
    | none =>
      left
      simp [refresh, truthy]
    | some t =>
      by_cases ht : t = ""
      · left
        simp [refresh, truthy, ht]
      · cases hsel : selectUserByRefreshToken db (hashToken env t) with
        | none =>
          right
          left
          simp [refresh, truthy, ht, hsel]
        | some user =>
          right
          right
          cases hver : jwtVerify env t env.JWT_SECRET now with
          | error err => rw [refresh_of_failed ht hsel hver]
          | ok decoded =>
            obtain ⟨_, key, hkey, hk, _, _⟩ :=
              (jwtVerify_ok_iff env t env.JWT_SECRET now decoded).1 hver
            rw [hkey] at hsecret
            simp [truthy, hk] at hsecret
  · intro refreshToken secret
    rfl

/-- Instance of `missing_secret_per_request`: bob logs in while `JWT_SECRET` is unset. -/
theorem missing_secret_per_request_witness :
    truthy demoEnvNoSecret.JWT_SECRET = false ∧
    login demoEnvNoSecret (demoDb (some "#live") none) (some "bobby") (some "Efgh5678?") 100 =
      (⟨500, .error "Server configuration error: JWT_SECRET not found"⟩,
       demoDb (some "#live") none) :=
  ⟨by decide,
   (missing_secret_per_request demoEnvNoSecret (demoDb (some "#live") none) (by decide)).1
     "bobby" "Efgh5678?" (bob none) 100 (by decide) (by decide) (by decide) (by decide)
     (by decide) (by decide)⟩

/-! ## Where rotation and supersession do hold -/

/-- After a different digest is stored on the account that held `h`, no account holds
`h`. -/
theorem old_fingerprint_gone {env : Env} {issued : List String} {db : Db}
    (hinv : FingerprintOwned env issued db)
    {user : User} {h h1 : String} (hmem : user ∈ db.users)
    (hfp : user.refresh_token = some h) (hne : h1 ≠ h) :
    ∀ v ∈ (updateRefreshTokenById db (some h1) user.id).users, v.refresh_token ≠ some h := by
  intro v hv
  obtain ⟨u, hu, rfl⟩ := mem_updateRefreshTokenById.1 hv
  by_cases hid : u.id = user.id
  · simpa [hid] using hne
  · simp only [hid, if_false]
    intro hufp
    exact hid (congrArg User.id (hinv.unique u hu user hmem h hufp hfp))

/-- Rotation holds when the refresh happens in a later clock second than the one in which
the presented token was minted: on a store that satisfies the invariant, when the digest
is collision-free on the issued tokens, the presented token and the token the refresh
mints among them, after a successful refresh with `t` a second refresh with `t` is
answered 403 "Invalid refresh token" and changes nothing. -/
theorem rotation_rejects_replay_in_later_second {env : Env} {issued presented : List String}
    {db : Db} (hcf : CollisionFreeOn env issued)
    (hvs : VerifyReturnsSigned env issued presented)
    (hinv : FingerprintOwned env issued db) {t key : String} {now : Nat} (later : Nat)
    {user : User} {decoded : Decoded}
    (hkey : env.JWT_SECRET = some key) (ht : t ∈ issued)
    (hnew : env.jwsEncode ⟨decoded.id, decoded.username, now, now + REFRESH_EXPIRES⟩ key ∈
      issued)
    (hsel : selectUserByRefreshToken db (hashToken env t) = some user)
    (hver : jwtVerify env t env.JWT_SECRET now = .ok decoded)
    (hiat : decoded.iat ≠ now) :
    refresh env (refresh env db (some t) now).2 (some t) later =
      (⟨403, .error "Invalid refresh token"⟩, (refresh env db (some t) now).2) := by
  obtain ⟨hmem, hfp⟩ := selectUserByRefreshToken_some hsel
  obtain ⟨hne0, key1, hkey1, _, hdec, _⟩ :=
    (jwtVerify_ok_iff env t env.JWT_SECRET now decoded).1 hver
  obtain ⟨key2, hkey2, hk, href⟩ := refresh_of_verified hsel hver
  have hk1 : key1 = key := Option.some.inj (hkey1.symm.trans hkey)
  have hk2 : key2 = key := Option.some.inj (hkey2.symm.trans hkey)
  rw [hk1] at hdec
  rw [hk2] at href
  have hne : hashToken env
      (env.jwsEncode ⟨decoded.id, decoded.username, now, now + REFRESH_EXPIRES⟩ key) ≠
      hashToken env t := by
    intro h
    have h1 := hcf _ hnew t ht h
    rw [← h1, hvs.1 key _ hkey hnew] at hdec
    exact hiat (congrArg Decoded.iat (Option.some.inj hdec)).symm
  rw [href]
  exact refresh_of_unmatched later hne0 (old_fingerprint_gone hinv hmem hfp hne)

theorem selectUserByUsername_update {db : Db} {value : Option String} {id : Nat}
    {username : String} {user : User} (h : selectUserByUsername db username = some user) :
    selectUserByUsername (updateRefreshTokenById db value id) username =
      some (if user.id = id then { user with refresh_token := value } else user) := by
  unfold selectUserByUsername at h ⊢
  simp only [updateRefreshTokenById, List.find?_map]
  have hcomp : ((fun u : User => decide (u.username = username)) ∘
      fun u : User => if u.id = id then { u with refresh_token := value } else u) =
      fun u : User => decide (u.username = username) := by
    funext u
    by_cases hu : u.id = id <;> simp [hu]
  rw [hcomp, h]
  rfl

/-- Supersession holds when the two logins happen in different clock seconds: on a store
that satisfies the invariant, when the digest is collision-free on the issued tokens and
the refresh tokens of the two logins are among them, after the second login of the same
account the (non-empty) refresh token of the first login is answered 403 "Invalid refresh
token". -/
theorem later_login_supersedes {env : Env} {issued presented : List String} {db : Db}
    (hcf : CollisionFreeOn env issued) (hvs : VerifyReturnsSigned env issued presented)
    (hinv : FingerprintOwned env issued db) {username password key : String} {user : User}
    (first second later : Nat) (hu : username ≠ "") (hp : password ≠ "")
    (hvu : env.isValidUsername username = true) (hvp : env.isValidPassword password = true)
    (hfind : selectUserByUsername db username = some user)
    (hpw : env.bcryptCompare password user.password = true)
    (hkey : env.JWT_SECRET = some key) (hk : key ≠ "")
    (hfirst :
      env.jwsEncode ⟨user.id, user.username, first, first + REFRESH_EXPIRES⟩ key ∈ issued)
    (hsecond :
      env.jwsEncode ⟨user.id, user.username, second, second + REFRESH_EXPIRES⟩ key ∈ issued)
    (hnonempty :
      env.jwsEncode ⟨user.id, user.username, first, first + REFRESH_EXPIRES⟩ key ≠ "")
    (hsec : first ≠ second) :
    refresh env
        (login env (login env db (some username) (some password) first).2
          (some username) (some password) second).2
        (some (env.jwsEncode ⟨user.id, user.username, first, first + REFRESH_EXPIRES⟩ key))
        later =
      (⟨403, .error "Invalid refresh token"⟩,
       (login env (login env db (some username) (some password) first).2
          (some username) (some password) second).2) := by
  have h1 := login_of_valid first hu hp hvu hvp hfind hpw hkey hk
  have hinv1 : FingerprintOwned env issued
      (login env db (some username) (some password) first).2 := by
    rw [h1]
    exact FingerprintOwned.of_store hcf hvs hkey hk hfirst hinv
  have hfind1 := @selectUserByUsername_update db
    (some (hashToken env
      (env.jwsEncode ⟨user.id, user.username, first, first + REFRESH_EXPIRES⟩ key)))
    user.id username user hfind
  simp only [if_true] at hfind1
  rw [h1] at hinv1 ⊢
  have h2 := login_of_valid second hu hp hvu hvp hfind1 hpw hkey hk
  rw [h2]
  have hne : hashToken env
      (env.jwsEncode ⟨user.id, user.username, second, second + REFRESH_EXPIRES⟩ key) ≠
      hashToken env
        (env.jwsEncode ⟨user.id, user.username, first, first + REFRESH_EXPIRES⟩ key) := by
    intro h
    have := id_eq_of_digest_eq hcf hvs hkey hsecond hfirst h
    exact hsec (congrArg Decoded.iat this).symm
  exact refresh_of_unmatched later hnonempty
    (old_fingerprint_gone hinv1 (List.mem_of_find?_eq_some hfind1) rfl hne)

/-! ## Minting within one clock second, in any environment -/

/-- Writing to an account the value all its rows already hold changes nothing. -/
theorem updateRefreshTokenById_same_value {db : Db} {value : Option String} {id : Nat}
    (h : ∀ u ∈ db.users, u.id = id → u.refresh_token = value) :
    updateRefreshTokenById db value id = db := by
  have hmap : List.map
      (fun u : User => if u.id = id then { u with refresh_token := value } else u)
      db.users = db.users := by
    conv_rhs => rw [← List.map_id db.users]
    apply List.map_congr_left
    intro u hu
    by_cases hid : u.id = id
    · have hv := h u hu hid
      rw [if_pos hid, ← hv]
      rfl
    · simp [hid]
  simp only [updateRefreshTokenById, hmap]

/-- In any environment in which the presented refresh token decodes to the payload it was
serialised from, a refresh within the clock second in which that token was minted returns
that very token, and on a store with distinct primary keys it leaves the store as it was:
the presented token stays live. -/
theorem refresh_same_second_returns_presented {env : Env} {db : Db}
    (hnodup : (db.users.map User.id).Nodup)
    {key username : String} {id now : Nat} {user : User}
    (hkey : env.JWT_SECRET = some key) (hk : key ≠ "")
    (hdec : env.jwsDecode (env.jwsEncode ⟨id, username, now, now + REFRESH_EXPIRES⟩ key) key =
      some ⟨id, username, now, now + REFRESH_EXPIRES⟩)
    (hne : env.jwsEncode ⟨id, username, now, now + REFRESH_EXPIRES⟩ key ≠ "")
    (hsel : selectUserByRefreshToken db
      (hashToken env (env.jwsEncode ⟨id, username, now, now + REFRESH_EXPIRES⟩ key)) =
        some user) :
    refresh env db (some (env.jwsEncode ⟨id, username, now, now + REFRESH_EXPIRES⟩ key)) now =
      (⟨200, .tokens (env.jwsEncode ⟨id, username, now, now + ACCESS_EXPIRES⟩ key)
          (env.jwsEncode ⟨id, username, now, now + REFRESH_EXPIRES⟩ key)⟩, db) := by
  have hver : jwtVerify env (env.jwsEncode ⟨id, username, now, now + REFRESH_EXPIRES⟩ key)
      env.JWT_SECRET now = .ok ⟨id, username, now, now + REFRESH_EXPIRES⟩ := by
    rw [jwtVerify_ok_iff]
    exact ⟨hne, key, hkey, hk, hdec, by simp [REFRESH_EXPIRES]⟩
  obtain ⟨hmem, hfp⟩ := selectUserByRefreshToken_some hsel
  obtain ⟨key1, hkey1, _, href⟩ := refresh_of_verified hsel hver
  have hk1 : key1 = key := Option.some.inj (hkey1.symm.trans hkey)
  rw [hk1] at href
  rw [href]
  have hsame : updateRefreshTokenById db
      (some (hashToken env (env.jwsEncode ⟨id, username, now, now + REFRESH_EXPIRES⟩ key)))
      user.id = db := by
    apply updateRefreshTokenById_same_value
    intro u hu hid
    rw [eq_of_id_eq hnodup hu hmem hid]
    exact hfp
  rw [hsame]

end MyApp
